import Mathlib

/-!
Verification of the pdf_digest orchestration core: a shallow embedding of
the services in `src/services` (agno_service.py, pdf_service.py,
cache_service.py) together with theorems about the behaviour its
specification describes.

Python values are embedded as the inductive `PyVal`; Python's `bool` is a
subclass of `int`, so the embedding of `isinstance(x, int)` accepts the
`bool` constructor as well.  Machine floats are embedded as exact
rationals (the validator only compares against 0).  Fallible Python code
(raising `ValueError` / `ConversionError` / `TypeError`) is embedded with
`Except String`.
-/

/-- Occurrence of `pat` as a prefix of `cs` (Python `str.startswith`,
over character lists). -/
def subAt (pat cs : List Char) : Bool :=
  List.isPrefixOf pat cs

/-- Occurrence of `pat` anywhere in `cs` (Python `pat in s`). -/
def hasSubB (pat : List Char) : List Char → Bool
  | [] => List.isPrefixOf pat []
  | c :: rest => List.isPrefixOf pat (c :: rest) || hasSubB pat rest

/-- Embedding of the Python values flowing through the service layer
(results of `json.loads`, table grids, cached payloads). -/
inductive PyVal where
  | str (s : String)
  | int (n : Int)
  | float (q : Rat)
  | bool (b : Bool)
  | none
  | list (xs : List PyVal)
  | dict (kvs : List (String × PyVal))

mutual

/-- Structural equality of embedded Python values (Python `==` restricted
to same-type operands, which is the only way it is used below). -/
def PyVal.beq : PyVal → PyVal → Bool
  | .str a, .str b => a == b
  | .int a, .int b => a == b
  | .float a, .float b => a == b
  | .bool a, .bool b => a == b
  | .none, .none => true
  | .list xs, .list ys => PyVal.beqList xs ys
  | .dict xs, .dict ys => PyVal.beqKvs xs ys
  | _, _ => false

/-- Pointwise `PyVal.beq` on lists. -/
def PyVal.beqList : List PyVal → List PyVal → Bool
  | [], [] => true
  | x :: xs, y :: ys => PyVal.beq x y && PyVal.beqList xs ys
  | _, _ => false

/-- Pointwise `PyVal.beq` on key/value lists. -/
def PyVal.beqKvs : List (String × PyVal) → List (String × PyVal) → Bool
  | [], [] => true
  | (k1, v1) :: xs, (k2, v2) :: ys =>
    k1 == k2 && PyVal.beq v1 v2 && PyVal.beqKvs xs ys
  | _, _ => false

end

instance : BEq PyVal := ⟨PyVal.beq⟩

/-- First-match association lookup, the embedding of `d[k]` / `k in d`
on a Python dict (Python dicts have unique keys; a duplicated key in the
embedding behaves like the first occurrence throughout). -/
def dictLookup (kvs : List (String × PyVal)) (k : String) : Option PyVal :=
  match kvs with
  | [] => Option.none
  | (k0, v) :: rest => if k0 = k then some v else dictLookup rest k

/-- `isinstance(x, dict)`. -/
def pyIsDict : PyVal → Bool
  | .dict _ => true
  | _ => false

/-- `isinstance(x, list)`. -/
def pyIsList : PyVal → Bool
  | .list _ => true
  | _ => false

/-- `isinstance(x, int)`.  Python's `bool` is a subclass of `int`, so
booleans satisfy this test. -/
def pyIsInstInt : PyVal → Bool
  | .int _ => true
  | .bool _ => true
  | _ => false

/-- `isinstance(x, (int, float))`.  Booleans again qualify. -/
def pyIsInstNum : PyVal → Bool
  | .int _ => true
  | .float _ => true
  | .bool _ => true
  | _ => false

/-- Numeric value used by Python's comparison operators: `True` counts
as 1 and `False` as 0. -/
def pyNumVal : PyVal → Option Rat
  | .int n => some (n : Rat)
  | .float q => some q
  | .bool b => some (if b then 1 else 0)
  | _ => Option.none

/-- Embedding of `x <= q` for a value already known to be numeric; on a
non-numeric value the comparison is never evaluated by the source (the
`isinstance` guard short-circuits first), so the `none` branch is
arbitrary. -/
def pyLe (v : PyVal) (q : Rat) : Bool :=
  match pyNumVal v with
  | some x => decide (x ≤ q)
  | Option.none => false

/-- Embedding of `x < q` under the same convention as `pyLe`. -/
def pyLt (v : PyVal) (q : Rat) : Bool :=
  match pyNumVal v with
  | some x => decide (x < q)
  | Option.none => false

/-- Embedding of the Python `in` operator, `k in v`, for a string key:
dict membership, list element equality, substring test on strings, and a
`TypeError` on non-containers.  (Equality of a `str` against the
elements of a list or against dict keys is Python `==`, which for a
string left operand coincides with structural equality.) -/
def pyIn (k : String) (v : PyVal) : Except String Bool :=
  match v with
  | .dict kvs => .ok (dictLookup kvs k).isSome
  | .list xs => .ok (xs.contains (.str k))
  | .str s => .ok (hasSubB k.data s.data)
  | _ => .error "TypeError: argument of type is not iterable"

/-- Embedding of `v[k]` for a string key: dict item access (KeyError on
a missing key), `TypeError` on anything that is not a dict. -/
def pyGet (v : PyVal) (k : String) : Except String PyVal :=
  match v with
  | .dict kvs =>
    match dictLookup kvs k with
    | some x => .ok x
    | Option.none => .error ("KeyError: " ++ k)
  | _ => .error "TypeError: indices must be integers"

/-- `len(x)` for the sized Python types; `TypeError` (modelled as
`none`) otherwise. -/
def pyLen : PyVal → Option Nat
  | .list xs => some xs.length
  | .dict kvs => some kvs.length
  | .str s => some s.length
  | _ => Option.none

/-- `Except.isOk`. -/
def isOkE {ε α : Type} : Except ε α → Bool
  | .ok _ => true
  | .error _ => false

/-- The error payload of an `Except`, if any. -/
def errOf {ε α : Type} : Except ε α → Option ε
  | .ok _ => Option.none
  | .error e => some e

/-! ## String utilities shared by the embeddings -/

/-- The open-brace character, written numerically. -/
def lbrace : Char := Char.ofNat 123

/-- The close-brace character, written numerically. -/
def rbrace : Char := Char.ofNat 125

/-- Python's `str.strip()` whitespace set (ASCII part; the source text
manipulated here is produced by the service itself). -/
def pyWs (c : Char) : Bool :=
  c = ' ' || c = '\t' || c = '\n' || c = '\r' || c = '\x0b' || c = '\x0c'

/-- Python `str.strip()` on a character list. -/
def pyStrip (cs : List Char) : List Char :=
  ((cs.dropWhile pyWs).reverse.dropWhile pyWs).reverse

/-- Python `s.strip()` on strings. -/
def pyStripStr (s : String) : String :=
  String.mk (pyStrip s.data)

/-- Index of the first occurrence of `pat` in `cs` (Python `str.find`,
with `none` for `-1`). -/
def findSub (pat : List Char) : List Char → Option Nat
  | [] => if List.isPrefixOf pat [] then some 0 else Option.none
  | c :: rest =>
    if List.isPrefixOf pat (c :: rest) then some 0
    else (findSub pat rest).map (· + 1)

/-- Python `str.find(pat, start)`. -/
def findSubFrom (pat cs : List Char) (start : Nat) : Option Nat :=
  (findSub pat (cs.drop start)).map (· + start)

/-- Index of the last occurrence of the single character `c` in `cs`
(Python `str.rfind(c)`). -/
def findLastChar (c : Char) (cs : List Char) : Option Nat :=
  (findSub [c] cs.reverse).map (fun i => cs.length - 1 - i)

/-- Number of characters equal to `c` (Python `s.count(c)` for a
one-character needle). -/
def countChar (c : Char) (cs : List Char) : Nat :=
  cs.countP (· = c)

/-- `content[a:b]` on character lists (Python slicing with
`0 ≤ a ≤ b`). -/
def pySlice (cs : List Char) (a b : Nat) : List Char :=
  (cs.drop a).take (b - a)

/-- Splits a character list at each newline; the result always has one
more part than the number of newlines, exactly like Python
`s.split('\n')`. -/
def splitLines : List Char → List (List Char)
  | [] => [[]]
  | c :: rest =>
    if c = '\n' then [] :: splitLines rest
    else
      match splitLines rest with
      | [] => [[c]]
      | l :: ls => (c :: l) :: ls

/-- Re-joins line parts with newlines (inverse of `splitLines`). -/
def joinNl : List (List Char) → List Char
  | [] => []
  | [l] => l
  | l :: ls => l ++ '\n' :: joinNl ls

/-- Applies `f` to every element except the last. -/
def mapInit {α : Type} (f : α → α) : List α → List α
  | [] => []
  | [x] => [x]
  | x :: y :: rest => f x :: mapInit f (y :: rest)

/-- Truncates a line at its first `//`. -/
def truncComment (l : List Char) : List Char :=
  match findSub ['/', '/'] l with
  | some i => l.take i
  | Option.none => l

/-- Embedding of `re.sub(r'//.*?\n', '\n', content)`: since `.` does not
match a newline and the match is non-greedy, each match is exactly a
`//` together with the rest of its line and the terminating newline, so
the substitution truncates every newline-terminated line at its first
`//` and leaves the final (unterminated) part untouched. -/
def removeJsComments (cs : List Char) : List Char :=
  joinNl (mapInit truncComment (splitLines cs))

/-! ## agno_service._extract_json_from_response -/

/-- The `'```json'` fence opener. -/
def fenceJson : List Char := "```json".data

/-- The `'```'` fence marker. -/
def fenceTicks : List Char := "```".data

/-- Second recovery strategy: the interior of a ```` ```json ````-tagged
fence (source lines 448-456). -/
def tryJsonFence (cs : List Char) : Option (List Char) :=
  match findSub fenceJson cs with
  | Option.none => Option.none
  | some idx =>
    let start := idx + 7
    match findSubFrom fenceTicks cs start with
    | Option.none => Option.none
    | some stop =>
      if start < stop then
        let jsonStr := pyStrip (pySlice cs start stop)
        if jsonStr = [] then Option.none
        else some (removeJsComments jsonStr)
      else Option.none

/-- Third recovery strategy: the interior of any fenced block, skipping
a language-tag line, provided the interior starts with an open brace
(source lines 459-471). -/
def tryAnyFence (cs : List Char) : Option (List Char) :=
  match findSub fenceTicks cs with
  | Option.none => Option.none
  | some idx =>
    let start0 := idx + 3
    let start :=
      match findSubFrom ['\n'] cs start0 with
      | some np => if start0 < np then np + 1 else start0
      | Option.none => start0
    match findSubFrom fenceTicks cs start with
    | Option.none => Option.none
    | some stop =>
      if start < stop then
        let jsonStr := pyStrip (pySlice cs start stop)
        if subAt [lbrace] jsonStr then some (removeJsComments jsonStr)
        else Option.none
      else Option.none

/-- Fourth recovery strategy: the slice from the first open brace to the
last close brace (source lines 474-484; note the slice is not
stripped). -/
def tryBraceSlice (cs : List Char) : Option (List Char) :=
  match findSub [lbrace] cs with
  | Option.none => Option.none
  | some fb =>
    match findLastChar rbrace cs with
    | Option.none => Option.none
    | some lb =>
      if fb < lb then
        let jsonStr := pySlice cs fb (lb + 1)
        if 0 < countChar lbrace jsonStr ∧ 0 < countChar rbrace jsonStr then
          some (removeJsComments jsonStr)
        else Option.none
      else Option.none

/-- The `ValueError` message raised when no strategy matches: it embeds
the first 200 characters of the *stripped* content (source line 487). -/
def extractJsonFailMsg (cs : List Char) : String :=
  "Não foi possível extrair JSON válido da resposta. Conteúdo: " ++
    String.mk (cs.take 200) ++ "..."

/-- Embedding of `AgnoService._extract_json_from_response` (source lines
423-487): strip the content, then try, in order, (1) already
brace-delimited, (2) json-tagged fence, (3) any fence whose interior
starts with a brace, (4) first-brace-to-last-brace slice; each success
strips `//`-comment artifacts.  Failure raises a `ValueError` carrying a
200-character snippet. -/
def extract_json_from_response (content : String) : Except String String :=
  let cs := pyStrip content.data
  if subAt [lbrace] cs ∧ subAt [rbrace] cs.reverse then
    .ok (String.mk (removeJsComments cs))
  else
    match tryJsonFence cs with
    | some js => .ok (String.mk js)
    | Option.none =>
      match tryAnyFence cs with
      | some js => .ok (String.mk js)
      | Option.none =>
        match tryBraceSlice cs with
        | some js => .ok (String.mk js)
        | Option.none => .error (extractJsonFailMsg cs)

/-! ## A checker for standard JSON syntax (the grammar accepted by
`json.loads`), used to state that recovered strings are parseable. -/

/-- JSON insignificant whitespace. -/
def jsonWsChar (c : Char) : Bool :=
  c = ' ' || c = '\t' || c = '\n' || c = '\r'

/-- Drops leading JSON whitespace. -/
def skipJsonWs (cs : List Char) : List Char :=
  cs.dropWhile jsonWsChar

/-- Hexadecimal digit test. -/
def isHexDigitCh (c : Char) : Bool :=
  c.isDigit || ('a' ≤ c && c ≤ 'f') || ('A' ≤ c && c ≤ 'F')

/-- Consumes the tail of a JSON string (after the opening quote),
returning the input following the closing quote. -/
def parseJsonStringTail : List Char → Option (List Char)
  | [] => Option.none
  | c :: rest =>
    if c = '"' then some rest
    else if c = '\\' then
      match rest with
      | [] => Option.none
      | e :: rest2 =>
        if e = '"' || e = '\\' || e = '/' || e = 'b' || e = 'f' ||
            e = 'n' || e = 'r' || e = 't' then
          parseJsonStringTail rest2
        else if e = 'u' then
          match rest2 with
          | h1 :: h2 :: h3 :: h4 :: rest3 =>
            if isHexDigitCh h1 && isHexDigitCh h2 && isHexDigitCh h3 && isHexDigitCh h4 then
              parseJsonStringTail rest3
            else Option.none
          | _ => Option.none
        else Option.none
    else if c.toNat < 32 then Option.none
    else parseJsonStringTail rest

/-- Consumes a JSON number, returning the remaining input. -/
def parseJsonNumber (cs : List Char) : Option (List Char) :=
  let cs1 := if subAt ['-'] cs then cs.drop 1 else cs
  match cs1 with
  | [] => Option.none
  | d :: rest =>
    if d = '0' then some (afterIntPart rest)
    else if d.isDigit then some (afterIntPart (rest.dropWhile Char.isDigit))
    else Option.none
where
  /-- Consumes an optional fraction and exponent. -/
  afterIntPart (cs : List Char) : List Char :=
    let cs2 :=
      match cs with
      | '.' :: d :: r => if d.isDigit then r.dropWhile Char.isDigit else cs
      | _ => cs
    match cs2 with
    | e :: r =>
      if e = 'e' || e = 'E' then
        let r2 := if subAt ['+'] r || subAt ['-'] r then r.drop 1 else r
        match r2 with
        | d :: r3 => if d.isDigit then r3.dropWhile Char.isDigit else cs2
        | [] => cs2
      else cs2
    | [] => cs2

mutual

/-- Consumes one JSON value (with surrounding-whitespace skipping on
the left), returning the remaining input; `fuel` bounds the nesting. -/
def parseJsonValue : Nat → List Char → Option (List Char)
  | 0, _ => Option.none
  | fuel + 1, cs =>
    match skipJsonWs cs with
    | [] => Option.none
    | c :: rest =>
      if c = lbrace then parseJsonObjectBody fuel (skipJsonWs rest) true
      else if c = '[' then parseJsonArrayBody fuel (skipJsonWs rest) true
      else if c = '"' then parseJsonStringTail rest
      else if c = 't' then
        if subAt "rue".data rest then some (rest.drop 3) else Option.none
      else if c = 'f' then
        if subAt "alse".data rest then some (rest.drop 4) else Option.none
      else if c = 'n' then
        if subAt "ull".data rest then some (rest.drop 3) else Option.none
      else parseJsonNumber (c :: rest)

/-- Consumes the members of a JSON object after the opening brace
(whitespace already skipped); `first` is true before the first
member. -/
def parseJsonObjectBody : Nat → List Char → Bool → Option (List Char)
  | 0, _, _ => Option.none
  | _ + 1, [], _ => Option.none
  | fuel + 1, c :: rest, first =>
    if c = rbrace ∧ first then some rest
    else if c = '"' then
      match parseJsonStringTail rest with
      | Option.none => Option.none
      | some afterKey =>
        match skipJsonWs afterKey with
        | ':' :: afterColon =>
          match parseJsonValue fuel afterColon with
          | Option.none => Option.none
          | some afterVal =>
            match skipJsonWs afterVal with
            | ',' :: afterComma => parseJsonObjectBody fuel (skipJsonWs afterComma) false
            | d :: afterBrace => if d = rbrace then some afterBrace else Option.none
            | [] => Option.none
        | _ => Option.none
    else Option.none

/-- Consumes the elements of a JSON array after the opening bracket
(whitespace already skipped). -/
def parseJsonArrayBody : Nat → List Char → Bool → Option (List Char)
  | 0, _, _ => Option.none
  | _ + 1, [], _ => Option.none
  | fuel + 1, c :: rest, first =>
    if c = ']' ∧ first then some rest
    else
      match parseJsonValue fuel (c :: rest) with
      | Option.none => Option.none
      | some afterVal =>
        match skipJsonWs afterVal with
        | ',' :: afterComma => parseJsonArrayBody fuel (skipJsonWs afterComma) false
        | ']' :: afterBracket => some afterBracket
        | _ => Option.none

end

/-- A string is parseable JSON when one value consumes it entirely
(up to trailing whitespace). -/
def isJsonValue (s : String) : Bool :=
  match parseJsonValue (s.length + 1) s.data with
  | some rest => skipJsonWs rest = []
  | Option.none => false

/-! ## agno_service result validator (source lines 670-764) -/

/-- The nine required trade fields (source lines 723-724). -/
def requiredTradeFields : List String :=
  ["orderNumber", "tradeDate", "operationType", "marketType",
   "market", "ticker", "quantity", "price", "totalValue"]

/-- The two required fee fields (source line 757). -/
def requiredFeeFields : List String :=
  ["orderNumber", "totalFees"]

/-- The `for field in required_fields: if field not in x: raise ...`
loop shared by `_validate_trade` and `_validate_fee`; `label` is
`"Trade"` or `"Fee"`. -/
def check_fields (label : String) (index : Nat) (obj : PyVal) :
    List String → Except String Unit
  | [] => .ok ()
  | f :: fs =>
    match pyIn f obj with
    | .error e => .error e
    | .ok true => check_fields label index obj fs
    | .ok false =>
      .error (label ++ " " ++ toString index ++ ": campo obrigatório '" ++
        f ++ "' ausente")

/-- Embedding of `AgnoService._validate_trade` (source lines 712-744). -/
def validate_trade (trade : PyVal) (index : Nat) : Except String Unit :=
  match check_fields "Trade" index trade requiredTradeFields with
  | .error e => .error e
  | .ok _ =>
  match pyGet trade "operationType" with
  | .error e => .error e
  | .ok op =>
  if !(op == PyVal.str "C" || op == PyVal.str "V") then
    .error ("Trade " ++ toString index ++ ": operationType deve ser 'C' ou 'V'")
  else
  match pyGet trade "market" with
  | .error e => .error e
  | .ok mk =>
  if !(mk == PyVal.str "BOVESPA" || mk == PyVal.str "BMF") then
    .error ("Trade " ++ toString index ++ ": market deve ser 'BOVESPA' ou 'BMF'")
  else
  match pyGet trade "quantity" with
  | .error e => .error e
  | .ok qty =>
  if !(pyIsInstInt qty) || pyLe qty 0 then
    .error ("Trade " ++ toString index ++ ": quantity deve ser um inteiro positivo")
  else
  match pyGet trade "price" with
  | .error e => .error e
  | .ok pr =>
  if !(pyIsInstNum pr) || pyLe pr 0 then
    .error ("Trade " ++ toString index ++ ": price deve ser um número positivo")
  else
  match pyGet trade "totalValue" with
  | .error e => .error e
  | .ok tv =>
  if !(pyIsInstNum tv) || pyLe tv 0 then
    .error ("Trade " ++ toString index ++ ": totalValue deve ser um número positivo")
  else .ok ()

/-- Embedding of `AgnoService._validate_fee` (source lines 746-764). -/
def validate_fee (fee : PyVal) (index : Nat) : Except String Unit :=
  match check_fields "Fee" index fee requiredFeeFields with
  | .error e => .error e
  | .ok _ =>
  match pyGet fee "totalFees" with
  | .error e => .error e
  | .ok tf =>
  if !(pyIsInstNum tf) || pyLt tf 0 then
    .error ("Fee " ++ toString index ++ ": totalFees deve ser um número não-negativo")
  else .ok ()

/-- The `for i, trade in enumerate(result['trades'])` loop. -/
def validate_trades_from (i : Nat) : List PyVal → Except String Unit
  | [] => .ok ()
  | t :: ts =>
    match validate_trade t i with
    | .error e => .error e
    | .ok _ => validate_trades_from (i + 1) ts

/-- The `for i, fee in enumerate(result['fees'])` loop. -/
def validate_fees_from (i : Nat) : List PyVal → Except String Unit
  | [] => .ok ()
  | f :: fs =>
    match validate_fee f i with
    | .error e => .error e
    | .ok _ => validate_fees_from (i + 1) fs

/-- The body of the `try` block of
`AgnoService._validate_extraction_result` (source lines 684-706). -/
def validate_extraction_result_inner (result : PyVal) : Except String Unit :=
  if !(pyIsDict result) then .error "Resultado deve ser um dicionário"
  else
    match pyIn "trades" result, pyIn "fees" result with
    | .ok ht, .ok hf =>
      if !(ht && hf) then .error "Resultado deve conter 'trades' e 'fees'"
      else
        match pyGet result "trades" with
        | .error e => .error e
        | .ok tv =>
          if !(pyIsList tv) then .error "'trades' deve ser uma lista"
          else
            match tv with
            | .list ts =>
              match validate_trades_from 0 ts with
              | .error e => .error e
              | .ok _ =>
                match pyGet result "fees" with
                | .error e => .error e
                | .ok fv =>
                  if !(pyIsList fv) then .error "'fees' deve ser uma lista"
                  else
                    match fv with
                    | .list fs => validate_fees_from 0 fs
                    | _ => .error "'fees' deve ser uma lista"
            | _ => .error "'trades' deve ser uma lista"
    | .error e, _ => .error e
    | _, .error e => .error e

/-- Embedding of `AgnoService._validate_extraction_result` (source lines
670-710): the surrounding `try/except` re-wraps any failure into a
`ConversionError` whose message embeds the inner one, and on success the
function returns the input object unchanged. -/
def validate_extraction_result (result : PyVal) : Except String PyVal :=
  match validate_extraction_result_inner result with
  | .ok _ => .ok result
  | .error e => .error ("Resultado da extração inválido: " ++ e)

/-! Spec-side predicates (written from the specification's §4.5 wording,
to be compared with the embedding above). -/

/-- Spec wording "quantity is a positive integer", under Python's type
lattice where `bool` is an `int` (`True` has value 1). -/
def posIntPy : PyVal → Bool
  | .int n => decide (0 < n)
  | .bool b => b
  | _ => false

/-- Spec wording "a positive number", booleans included (value 1 or 0). -/
def posNumPy : PyVal → Bool
  | .int n => decide (0 < n)
  | .float q => decide (0 < q)
  | .bool b => b
  | _ => false

/-- Spec wording "a non-negative number", booleans included. -/
def nonNegNumPy : PyVal → Bool
  | .int n => decide (0 ≤ n)
  | .float q => decide (0 ≤ q)
  | .bool _ => true
  | _ => false

/-- Spec wording "quantity is a positive integer" read strictly: an
integer value, not a boolean. -/
def posIntStrict : PyVal → Bool
  | .int n => decide (0 < n)
  | _ => false

/-- Spec §4.5 conditions on one trade record. -/
def spec_trade_ok (t : PyVal) : Bool :=
  match t with
  | .dict kvs =>
    requiredTradeFields.all (fun f => (dictLookup kvs f).isSome) &&
    (dictLookup kvs "operationType").any
      (fun v => v == PyVal.str "C" || v == PyVal.str "V") &&
    (dictLookup kvs "market").any
      (fun v => v == PyVal.str "BOVESPA" || v == PyVal.str "BMF") &&
    (dictLookup kvs "quantity").any posIntPy &&
    (dictLookup kvs "price").any posNumPy &&
    (dictLookup kvs "totalValue").any posNumPy
  | _ => false

/-- Spec §4.5 conditions on one fee record. -/
def spec_fee_ok (f : PyVal) : Bool :=
  match f with
  | .dict kvs =>
    requiredFeeFields.all (fun g => (dictLookup kvs g).isSome) &&
    (dictLookup kvs "totalFees").any nonNegNumPy
  | _ => false

/-- Spec §4.5 conditions on the whole extraction result: an object with
`trades` and `fees` lists whose members all satisfy the per-record
conditions. -/
def spec_result_ok (r : PyVal) : Bool :=
  match r with
  | .dict kvs =>
    match dictLookup kvs "trades", dictLookup kvs "fees" with
    | some (.list ts), some (.list fs) =>
      ts.all spec_trade_ok && fs.all spec_fee_ok
    | _, _ => false
  | _ => false

/-- The claim's strict reading of one trade record: identical except
that quantity must be an integer value proper (no boolean). -/
def spec_trade_ok_strict (t : PyVal) : Bool :=
  match t with
  | .dict kvs =>
    requiredTradeFields.all (fun f => (dictLookup kvs f).isSome) &&
    (dictLookup kvs "operationType").any
      (fun v => v == PyVal.str "C" || v == PyVal.str "V") &&
    (dictLookup kvs "market").any
      (fun v => v == PyVal.str "BOVESPA" || v == PyVal.str "BMF") &&
    (dictLookup kvs "quantity").any posIntStrict &&
    (dictLookup kvs "price").any posNumPy &&
    (dictLookup kvs "totalValue").any posNumPy
  | _ => false

/-- The claim's strict reading of the whole result. -/
def spec_result_ok_strict (r : PyVal) : Bool :=
  match r with
  | .dict kvs =>
    match dictLookup kvs "trades", dictLookup kvs "fees" with
    | some (.list ts), some (.list fs) =>
      ts.all spec_trade_ok_strict && fs.all spec_fee_ok
    | _, _ => false
  | _ => false

/-! ## pdf_service._split_by_nota_negociacao (source lines 139-173) -/

/-- Lower-casing as applied by `re.IGNORECASE` over the alphabet of the
boundary marker: ASCII letters plus the two accented letters occurring
in `"NOTA DE NEGOCIAÇÃO"`. -/
def pyLowerChar (c : Char) : Char :=
  if c = 'Ç' then 'ç' else if c = 'Ã' then 'ã' else c.toLower

/-- Case-insensitive character equality. -/
def ciEq (a b : Char) : Bool :=
  pyLowerChar a = pyLowerChar b

/-- `pat` matches at the head of `cs` under character comparison `eq`. -/
def matchesAt (eq : Char → Char → Bool) : List Char → List Char → Bool
  | [], _ => true
  | _ :: _, [] => false
  | p :: ps, c :: cs => eq p c && matchesAt eq ps cs

/-- Start offsets of the non-overlapping, leftmost-first occurrences of
`pat` in `text`, the way `re.finditer` (and `str.count`) enumerate
matches of a literal pattern; `eq` is the character comparison.  After a
match the scanner suppresses matches at the next `pat.length - 1`
positions (the `skip` counter), which advances it past the matched
text, exactly the non-overlapping enumeration. -/
def findOccsFrom (eq : Char → Char → Bool) (pat : List Char) :
    List Char → Nat → Nat → List Nat
  | [], _, _ => []
  | _ :: rest, ofs, sk + 1 => findOccsFrom eq pat rest (ofs + 1) sk
  | c :: rest, ofs, 0 =>
    if matchesAt eq pat (c :: rest) then
      ofs :: findOccsFrom eq pat rest (ofs + 1) (pat.length - 1)
    else
      findOccsFrom eq pat rest (ofs + 1) 0

/-- All match offsets of `pat` in `text`. -/
def findOccs (eq : Char → Char → Bool) (pat text : List Char) : List Nat :=
  findOccsFrom eq pat text 0 0

/-- Python `s.count(sub)` (non-overlapping occurrence count). -/
def countSub (pat text : List Char) : Nat :=
  (findOccs (fun a b => a = b) pat text).length

/-- The literal boundary marker. -/
def notaMarker : String := "NOTA DE NEGOCIAÇÃO"

/-- The `for i, match in enumerate(matches)` loop of
`_split_by_nota_negociacao` (source lines 158-170): each span runs from
its match start to the next match start (or to the end of the text) and
is stripped; indices are 1-based. -/
def buildPages (cs : List Char) (i : Nat) : List Nat → List (Nat × String)
  | [] => []
  | [s] => [(i + 1, String.mk (pyStrip (cs.drop s)))]
  | s1 :: s2 :: rest =>
    (i + 1, String.mk (pyStrip (pySlice cs s1 s2))) ::
      buildPages cs (i + 1) (s2 :: rest)

/-- Embedding of `PDFService._split_by_nota_negociacao` (source lines
139-173).  The boolean records whether the no-match soft warning was
logged; in that branch the whole (unstripped) input is returned as the
single 1-indexed span. -/
def split_by_nota_negociacao (markdown : String) : Bool × List (Nat × String) :=
  let ms := findOccs ciEq notaMarker.data markdown.data
  match ms with
  | [] => (true, [(1, markdown)])
  | _ :: _ => (false, buildPages markdown.data 0 ms)

/-! ## cache_service.CacheService (source lines 17-98) -/

/-- State of a constructed `CacheService`: the `enabled` flag and
whether `self.client` was assigned (it is assigned before the `ping`
probe, so it survives a failed probe). -/
structure CacheState where
  enabled : Bool
  hasClient : Bool
  ttl : Nat
  deriving DecidableEq

/-- A reply from the underlying store client: a value, or a raised
exception. -/
inductive RedisReply (α : Type) where
  | val (a : α)
  | exn (msg : String)

/-- Embedding of `CacheService.__init__` (source lines 17-35): `ping` is
the outcome of the connectivity probe (`.ok` or a raised exception);
every exception is caught and merely disables the cache, so
construction is a total function — the host process is never failed. -/
def cache_init (cache_enabled : Bool) (ttl : Nat) (ping : Except String Unit) :
    CacheState :=
  if cache_enabled then
    match ping with
    | .ok _ => ⟨true, true, ttl⟩
    | .error _ => ⟨false, true, ttl⟩
  else ⟨false, false, ttl⟩

/-- Embedding of `CacheService.get` (source lines 37-63): `redisGet`
models `self.client.get` and `decode` models `json.loads` (with `none`
for a `JSONDecodeError`); any store exception or decode failure yields
`None`. -/
def cache_get (st : CacheState) (redisGet : String → RedisReply (Option String))
    (decode : String → Option PyVal) (key : String) : Option PyVal :=
  if !st.enabled || !st.hasClient then Option.none
  else
    match redisGet key with
    | .exn _ => Option.none
    | .val Option.none => Option.none
    | .val (some data) => decode data

/-- Embedding of `CacheService.set` (source lines 65-98): `redisSetex`
models `self.client.setex` and `encode` models `json.dumps` (with
`none` for a serialization failure).  Note the Python `ttl or self.ttl`:
a `ttl` of `None` *or 0* falls back to the default. -/
def cache_set (st : CacheState)
    (redisSetex : String → Nat → String → RedisReply Bool)
    (encode : PyVal → Option String) (key : String) (value : PyVal)
    (ttl : Option Nat) : Bool :=
  if !st.enabled || !st.hasClient then false
  else
    let cacheTtl :=
      match ttl with
      | some t => if t = 0 then st.ttl else t
      | Option.none => st.ttl
    match encode value with
    | Option.none => false
    | some serialized =>
      match redisSetex key cacheTtl serialized with
      | .exn _ => false
      | .val b => b

/-! ## pdf_service table structuring and export (source lines 544-671) -/

/-- A table record as assembled by `_extract_tables_from_document`:
identifier, page, optional geometry/confidence (opaque here), and the
canonical grid (`data`), which may be absent. -/
structure TableInfo where
  id : Nat
  page : Nat
  confidence : Option Rat
  data : Option (List (List String))
  deriving DecidableEq

/-- The payload of a processed table, by export format. -/
inductive ExportData where
  | grid (g : List (List String))
  | text (s : String)
  | sheet (headers : List String) (rows : List (List String))
  deriving DecidableEq

/-- One entry of the export result list. -/
structure ProcessedTable where
  id : Nat
  page : Nat
  rows : Nat
  cols : Nat
  data : ExportData
  format : String
  deriving DecidableEq

/-- Quoting condition of Python's `csv.writer` with the default dialect
(`QUOTE_MINIMAL`): a cell is quoted iff it contains the delimiter, the
quote character, or a line-terminator character. -/
def cellNeedsQuote (s : String) : Bool :=
  s.data.any (fun c => c = ',' || c = '"' || c = '\r' || c = '\n')

/-- Doubles every quote character (the `doublequote=True` dialect
default). -/
def dupQuotes : List Char → List Char
  | [] => []
  | c :: rest =>
    if c = '"' then '"' :: '"' :: dupQuotes rest
    else c :: dupQuotes rest

/-- Encodes one cell as `csv.writer` does. -/
def encodeCell (s : String) : List Char :=
  if cellNeedsQuote s then '"' :: (dupQuotes s.data ++ ['"'])
  else s.data

/-- Encodes one row: cells joined with commas, terminated by the default
`\r\n` line terminator (`csv.writer.writerow`).  A record consisting of
exactly one empty field is written as a quoted empty string `""` (the
writer's rule distinguishing it from an empty record). -/
def encodeCells : List String → List Char
  | [] => ['\r', '\n']
  | [c] =>
    if c = "" then '"' :: '"' :: ['\r', '\n']
    else encodeCell c ++ ['\r', '\n']
  | c :: c2 :: rest => encodeCell c ++ ',' :: encodeCells (c2 :: rest)

/-- Embedding of `PDFService._convert_table_to_csv` (source lines
602-612): `csv.writer(...).writerows(table_data)` into a string
buffer. -/
def convert_table_to_csv (table_data : List (List String)) : String :=
  String.mk ((table_data.map encodeCells).flatten)

/-- Embedding of `PDFService._convert_table_to_excel_format` (source
lines 614-630). -/
def convert_table_to_excel_format (table_data : List (List String)) :
    List String × List (List String) :=
  match table_data with
  | [] => ([], [])
  | headers :: rest => (headers, rest)

/-- Embedding of `PDFService._escape_html` (source lines 664-671). -/
def escape_html (text : String) : String :=
  String.mk (text.data.flatMap (fun c =>
    if c = '&' then "&amp;".data
    else if c = '<' then "&lt;".data
    else if c = '>' then "&gt;".data
    else if c = '"' then "&quot;".data
    else if c = '\'' then "&#x27;".data
    else [c]))

/-- Embedding of `PDFService._convert_table_to_html` (source lines
632-662). -/
def convert_table_to_html (table_data : List (List String)) : String :=
  match table_data with
  | [] => "<table></table>"
  | hd :: rest =>
    let header := "<thead><tr>" ++
      String.join (hd.map (fun c => "<th>" ++ escape_html c ++ "</th>")) ++
      "</tr></thead>"
    let body :=
      if rest = [] then ""
      else "<tbody>" ++
        String.join (rest.map (fun row =>
          "<tr>" ++
            String.join (row.map (fun c => "<td>" ++ escape_html c ++ "</td>")) ++
          "</tr>")) ++ "</tbody>"
    "<table border='1'>" ++ header ++ body ++ "</table>"

/-- The column count recorded in the export metadata (source line
569). -/
def tableCols (g : List (List String)) : Nat :=
  match g with
  | [] => 0
  | r0 :: _ => if r0 = [] then 0 else r0.length

/-- Embedding of `PDFService._process_tables_for_export` (source lines
544-600): tables with an absent or empty grid are dropped; the others
are converted according to the requested format (an unknown format
falls back to json). -/
def process_tables_for_export (tables : List TableInfo)
    (export_format : String) : List ProcessedTable :=
  tables.filterMap (fun t =>
    match t.data with
    | Option.none => Option.none
    | some g =>
      if g = [] then Option.none
      else
        let payload : ExportData × String :=
          if export_format = "json" then (.grid g, "json")
          else if export_format = "csv" then (.text (convert_table_to_csv g), "csv")
          else if export_format = "excel" then
            let he := convert_table_to_excel_format g
            (.sheet he.1 he.2, "excel")
          else if export_format = "html" then (.text (convert_table_to_html g), "html")
          else (.grid g, "json")
        some ⟨t.id, t.page, g.length, tableCols g, payload.1, payload.2⟩)

/-! ## Standard CSV splitting (the spec's "parseable back ... via
standard CSV splitting"), with the record conventions of Python's
`csv.reader`: `\r\n`-or-`\n` record ends, minimal-quoting fields with
doubled quotes, and a completely blank line read as a record with no
fields. -/

/-- Parsing mode of the CSV reader. -/
inductive CsvMode where
  | start                -- start of a record, nothing consumed yet
  | fieldStart           -- immediately after a delimiter
  | field                -- inside an unquoted field
  | quoted               -- inside a quoted field
  | afterQuote           -- right after a closing quote
  | sawCR (fromStart : Bool)  -- just saw a bare `\r`
  deriving DecidableEq

/-- Reader state: finished records, finished fields of the current
record, characters of the current field, and the mode. -/
structure CsvSt where
  recs : List (List String)
  fields : List String
  cur : List Char
  mode : CsvMode
  deriving DecidableEq

/-- Closes the current record with its pending field. -/
def csvEndRecord (st : CsvSt) : CsvSt :=
  ⟨st.recs ++ [st.fields ++ [String.mk st.cur]], [], [], .start⟩

/-- One step of the CSV reader. -/
def csvStep (st : CsvSt) (c : Char) : CsvSt :=
  match st.mode with
  | .start =>
    if c = '"' then { st with mode := .quoted }
    else if c = ',' then { st with fields := st.fields ++ [""], mode := .fieldStart }
    else if c = '\r' then { st with mode := .sawCR true }
    else if c = '\n' then ⟨st.recs ++ [[]], [], [], .start⟩
    else { st with cur := [c], mode := .field }
  | .fieldStart =>
    if c = '"' then { st with mode := .quoted }
    else if c = ',' then
      { st with fields := st.fields ++ [String.mk st.cur], cur := [], mode := .fieldStart }
    else if c = '\r' then { st with mode := .sawCR false }
    else if c = '\n' then csvEndRecord st
    else { st with cur := st.cur ++ [c], mode := .field }
  | .field =>
    if c = ',' then
      { st with fields := st.fields ++ [String.mk st.cur], cur := [], mode := .fieldStart }
    else if c = '\r' then { st with mode := .sawCR false }
    else if c = '\n' then csvEndRecord st
    else { st with cur := st.cur ++ [c], mode := .field }
  | .quoted =>
    if c = '"' then { st with mode := .afterQuote }
    else { st with cur := st.cur ++ [c], mode := .quoted }
  | .afterQuote =>
    if c = '"' then { st with cur := st.cur ++ ['"'], mode := .quoted }
    else if c = ',' then
      { st with fields := st.fields ++ [String.mk st.cur], cur := [], mode := .fieldStart }
    else if c = '\r' then { st with mode := .sawCR false }
    else if c = '\n' then csvEndRecord st
    else { st with cur := st.cur ++ [c], mode := .field }
  | .sawCR fromStart =>
    if c = '\n' then
      if fromStart then ⟨st.recs ++ [[]], [], [], .start⟩
      else csvEndRecord st
    else if c = ',' then
      { st with fields := st.fields ++ [String.mk (st.cur ++ ['\r'])], cur := [],
                mode := .fieldStart }
    else if c = '\r' then { st with cur := st.cur ++ ['\r'], mode := .sawCR false }
    else { st with cur := st.cur ++ ['\r', c], mode := .field }

/-- Flushes the reader state at end of input. -/
def csvFinal (st : CsvSt) : List (List String) :=
  match st.mode with
  | .start => st.recs
  | .sawCR _ => st.recs ++ [st.fields ++ [String.mk (st.cur ++ ['\r'])]]
  | _ => st.recs ++ [st.fields ++ [String.mk st.cur]]

/-- The initial reader state. -/
def csvInit : CsvSt := ⟨[], [], [], .start⟩

/-- Standard CSV splitting of a whole string into records of cells. -/
def csvParse (s : String) : List (List String) :=
  csvFinal (s.data.foldl csvStep csvInit)

/-! ## pdf_service.save_tables_to_files (source lines 673-735) -/

/-- The four path lists returned by `save_tables_to_files`. -/
structure SavedFiles where
  csv : List String
  excel : List String
  json : List String
  html : List String
  deriving DecidableEq

/-- The empty grouping (also what the outer `except` returns). -/
def emptySaved : SavedFiles := ⟨[], [], [], []⟩

/-- The environment of `save_tables_to_files`: whether the output
directory could be created, whether a plain file write succeeds
(`False` models a raised `IOError`), and whether the pandas
`DataFrame`/`to_excel` conversion of a table succeeds. -/
structure SaveEnv where
  mkdirOk : Bool
  writeOk : String → Bool
  excelOk : String → Bool

/-- The target filename for a table (source lines 703/709/719/725). -/
def tableFileName (output_dir : String) (tid : Nat) (ext : String) : String :=
  output_dir ++ "/table_" ++ toString tid ++ "." ++ ext

/-- The `for table in tables` loop: `none` models an exception escaping
to the outer handler.  Only the excel branch has its own `try/except`
(source lines 710-716); a failure there is logged and skipped. -/
def saveTablesGo (env : SaveEnv) (output_dir : String) :
    List ProcessedTable → SavedFiles → Option SavedFiles
  | [], acc => some acc
  | t :: ts, acc =>
    if t.format = "csv" then
      let fn := tableFileName output_dir t.id "csv"
      if env.writeOk fn then saveTablesGo env output_dir ts { acc with csv := acc.csv ++ [fn] }
      else Option.none
    else if t.format = "excel" then
      let fn := tableFileName output_dir t.id "xlsx"
      if env.excelOk fn then saveTablesGo env output_dir ts { acc with excel := acc.excel ++ [fn] }
      else saveTablesGo env output_dir ts acc
    else if t.format = "html" then
      let fn := tableFileName output_dir t.id "html"
      if env.writeOk fn then saveTablesGo env output_dir ts { acc with html := acc.html ++ [fn] }
      else Option.none
    else if t.format = "json" then
      let fn := tableFileName output_dir t.id "json"
      if env.writeOk fn then saveTablesGo env output_dir ts { acc with json := acc.json ++ [fn] }
      else Option.none
    else saveTablesGo env output_dir ts acc

/-- Embedding of `PDFService.save_tables_to_files` (source lines
673-735): any exception outside the excel branch reaches the outer
handler, which logs and returns the *empty* grouping — paths of tables
already persisted are not returned. -/
def save_tables_to_files (env : SaveEnv) (tables : List ProcessedTable)
    (output_dir : String) : SavedFiles :=
  if !env.mkdirOk then emptySaved
  else
    match saveTablesGo env output_dir tables emptySaved with
    | some saved => saved
    | Option.none => emptySaved

/-! ## agno_service._extract_with_agno_agent (source lines 286-421) -/

/-- An error recorded by the retry loop's `last_error`: a `ValueError`
(from JSON recovery or the structural check), a `json.JSONDecodeError`
(recorded with the string that failed to parse), or a generic exception
such as the `TypeError` from `len()` on an unsized value. -/
inductive AgnoErr where
  | valueErr (msg : String)
  | jsonErr (jsonStr : String)
  | typeErr (msg : String)
  deriving DecidableEq

/-- The terminal `ConversionError`: which raise site produced it and
the underlying error it wraps (embedded into its message by the
source). -/
structure ConvErr where
  site : String
  wrapped : Option AgnoErr
  deriving DecidableEq

/-- The phrases scanned for at source lines 387-390 (lower-cased
substring test on the error text; stdlib `JSONDecodeError` messages
never contain them). -/
def cannotProcessPhrases : List String :=
  ["cannot directly parse", "cannot process", "não consigo processar",
   "environment", "local development", "install"]

/-- ASCII lower-casing of a string (the error messages scanned are
ASCII). -/
def lowerStr (s : String) : String :=
  String.mk (s.data.map Char.toLower)

/-- The `str(e.args[0]).lower()` phrase check of source lines 385-390. -/
def phrasesMatch : AgnoErr → Bool
  | .valueErr m => cannotProcessPhrases.any (fun p => hasSubB p.data (lowerStr m).data)
  | .jsonErr _ => false
  | .typeErr m => cannotProcessPhrases.any (fun p => hasSubB p.data (lowerStr m).data)

/-- JSON recovery followed by `json.loads` followed by the shallow
structural check (source lines 345-350), classifying a response string
into a structurally valid parsed object or the error `last_error` would
record; `parse` is the external `json.loads`. -/
def classifyResponse (parse : String → Option PyVal) (content : String) :
    Except AgnoErr PyVal :=
  match extract_json_from_response content with
  | .error msg => .error (.valueErr msg)
  | .ok jsonStr =>
    match parse jsonStr with
    | Option.none => .error (.jsonErr jsonStr)
    | some r =>
      if !(pyIsDict r) ||
          !(match pyIn "trades" r with | .ok b => b | .error _ => false) ||
          !(match pyIn "fees" r with | .ok b => b | .error _ => false) then
        .error (.valueErr "Estrutura JSON inválida - deve conter 'trades' e 'fees'")
      else .ok r

/-- The empty-structure probe of source line 338: the response is
non-empty and contains both literal substrings. -/
def emptyStructureMarker (content : String) : Bool :=
  content ≠ "" && hasSubB "trades\":[]".data content.data &&
    hasSubB "fees\":[]".data content.data

/-- Outcome of one loop iteration. -/
inductive StepOutcome where
  | success (r : PyVal)
  | retry (e : Option AgnoErr)
  | fatal (c : ConvErr)

/-- The `except (json.JSONDecodeError, ValueError)` handler (source
lines 375-393): retry below the last attempt, otherwise raise a
`ConversionError` wrapping the error. -/
def handleParseFailure (attempt : Nat) (e : AgnoErr) : StepOutcome :=
  if attempt < 2 then .retry (some e)
  else if phrasesMatch e then .fatal ⟨"cannot_process", some e⟩
  else .fatal ⟨"parse_fail", some e⟩

/-- The `except Exception` handler (source lines 395-399). -/
def handleGenericFailure (attempt : Nat) (e : AgnoErr) : StepOutcome :=
  if attempt < 2 then .retry (some e)
  else .fatal ⟨"generic_fail", some e⟩

/-- One iteration of the retry loop (source lines 309-399), given the
agent's response `content` for this attempt: the empty-structure
short-cut, JSON recovery + parse + structural check, the
fewer-trades-than-expected retry, and the all-empty retry. -/
def attemptStep (parse : String → Option PyVal) (fullPdfContent : Option String)
    (attempt : Nat) (content : String) : StepOutcome :=
  if emptyStructureMarker content ∧ attempt < 2 then .retry Option.none
  else
    match classifyResponse parse content with
    | .error e => handleParseFailure attempt e
    | .ok r =>
      let tradesVal := match pyGet r "trades" with | .ok v => v | .error _ => .none
      let feesVal := match pyGet r "fees" with | .ok v => v | .error _ => .none
      match pyLen tradesVal with
      | Option.none => handleGenericFailure attempt (.typeErr "object has no len()")
      | some tradesCount =>
        match pyLen feesVal with
        | Option.none => handleGenericFailure attempt (.typeErr "object has no len()")
        | some feesCount =>
          let expectedTrades :=
            match fullPdfContent with
            | some s => countSub "1-BOVESPA".data s.data
            | Option.none => 1
          if tradesCount < expectedTrades ∧ attempt < 2 then .retry Option.none
          else if tradesCount = 0 ∧ feesCount = 0 ∧ attempt < 2 then .retry Option.none
          else .success r

/-- The overall result of the retry loop: outcome, number of agent
invocations, and whether the diagnostic snapshot
(`_log_extraction_diagnosis`, reached only by falling out of the loop
at source lines 401-404) was emitted. -/
structure RunResult where
  outcome : Except ConvErr PyVal
  invocations : Nat
  diagnosed : Bool

/-- The `for attempt in range(3)` loop, driven by the number of
remaining attempts (initially 3) and the current attempt index, with
the `last_error` accumulator; falling out of the loop emits the
diagnosis and raises a `ConversionError` wrapping `last_error` (source
lines 401-404). -/
def runFrom (agent : Nat → String) (parse : String → Option PyVal)
    (fullPdfContent : Option String) :
    Nat → Nat → Option AgnoErr → RunResult
  | 0, attempt, lastError => ⟨.error ⟨"exhausted", lastError⟩, attempt, true⟩
  | remaining + 1, attempt, lastError =>
    match attemptStep parse fullPdfContent attempt (agent attempt) with
    | .success r => ⟨.ok r, attempt + 1, false⟩
    | .fatal c => ⟨.error c, attempt + 1, false⟩
    | .retry e =>
      runFrom agent parse fullPdfContent remaining (attempt + 1)
        (match e with | some x => some x | Option.none => lastError)

/-- The pre-loop raw-content computation (source lines 300-307): the
pypdf text is used when truthy and not an error string. -/
def computeFullContent (pypdfText : String) : Option String :=
  if pypdfText ≠ "" ∧ !(subAt "ERRO".data pypdfText.data) then some pypdfText
  else Option.none

/-- Embedding of `AgnoService._extract_with_agno_agent` (source lines
286-404): `agent` gives the response text of each attempt (the prompt
tier is the attempt index), `parse` is `json.loads`, and `pypdfText` is
the raw text extracted up front by pypdf. -/
def extract_with_agno_agent (agent : Nat → String)
    (parse : String → Option PyVal) (pypdfText : String) : RunResult :=
  runFrom agent parse (computeFullContent pypdfText) 3 0 Option.none

/-- A well-formed one-trade / one-fee result. -/
def exResultGood : PyVal :=
  .dict [("trades", .list [.dict
    [("orderNumber", .str "5187530"), ("tradeDate", .str "2014-05-08"),
     ("operationType", .str "C"), ("marketType", .str "VISTA"),
     ("market", .str "BOVESPA"), ("ticker", .str "SUZANO"),
     ("quantity", .int 100), ("price", .float 7),
     ("totalValue", .float 728)]]),
   ("fees", .list [.dict [("orderNumber", .str "5187530"),
     ("totalFees", .float 15)]])]

/-- A result whose only trade carries the boolean `True` as quantity
(in JSON terms: `"quantity": true`). -/
def exResultBoolQty : PyVal :=
  .dict [("trades", .list [.dict
    [("orderNumber", .str "1"), ("tradeDate", .str "2024-01-02"),
     ("operationType", .str "V"), ("marketType", .str "VISTA"),
     ("market", .str "BMF"), ("ticker", .str "PETR4"),
     ("quantity", .bool true), ("price", .int 2),
     ("totalValue", .int 2)]]),
   ("fees", .list [])]

/-- A result whose first violation sits at trade index 1 (missing
`ticker`); trade 0 is valid and trade 2 carries a second violation. -/
def exResultFirstViolation : PyVal :=
  .dict [("trades", .list
    [.dict
      [("orderNumber", .str "1"), ("tradeDate", .str "2024-01-02"),
       ("operationType", .str "C"), ("marketType", .str "VISTA"),
       ("market", .str "BOVESPA"), ("ticker", .str "VALE3"),
       ("quantity", .int 5), ("price", .int 3), ("totalValue", .int 15)],
     .dict
      [("orderNumber", .str "2"), ("tradeDate", .str "2024-01-02"),
       ("operationType", .str "C"), ("marketType", .str "VISTA"),
       ("market", .str "BOVESPA"),
       ("quantity", .int 5), ("price", .int 3), ("totalValue", .int 15)],
     .dict
      [("orderNumber", .str "3"), ("tradeDate", .str "2024-01-02"),
       ("operationType", .str "C"), ("marketType", .str "VISTA"),
       ("market", .str "BOVESPA"), ("ticker", .str "AMBEV"),
       ("quantity", .int 0), ("price", .int 3), ("totalValue", .int 15)]]),
   ("fees", .list [])]

/-- The trade used to exhibit the boolean-quantity acceptance for C10
(distinct from the C2 counterexample input). -/
def exTradeBoolQtyC10 : PyVal :=
  .dict [("orderNumber", .str "5200251"), ("tradeDate", .str "2014-05-14"),
   ("operationType", .str "C"), ("marketType", .str "VISTA"),
   ("market", .str "BOVESPA"), ("ticker", .str "AMBEV"),
   ("quantity", .bool true), ("price", .int 16),
   ("totalValue", .int 3340)]

/-- The C10 extraction result containing `exTradeBoolQtyC10`. -/
def exResultBoolQtyC10 : PyVal :=
  .dict [("trades", .list [exTradeBoolQtyC10]),
   ("fees", .list [.dict [("orderNumber", .str "5200251"), ("totalFees", .bool false)]])]

/-- The claim's "contains a `{`/`}` pair": a first open brace strictly
before a last close brace. -/
def hasBracePair (cs : List Char) : Bool :=
  match findSub [lbrace] cs, findLastChar rbrace cs with
  | some f, some l => decide (f < l)
  | _, _ => false

/-- The JSON object used for the recovery shape tests. -/
def exJsonBody : String := "\x7b\"trades\": [], \"fees\": []\x7d"

/-- Shape 2: the object inside a json-tagged fence. -/
def exShapeFencedJson : String :=
  "```json\n\x7b\"trades\": [], \"fees\": []\x7d\n```"

/-- Shape 3: the object inside an untagged fence. -/
def exShapePlainFence : String :=
  "```\n\x7b\"trades\": [], \"fees\": []\x7d\n```"

/-- Shape 4: the object surrounded by prose. -/
def exShapeNoise : String :=
  "noise before \x7b\"trades\": [], \"fees\": []\x7d noise after"

/-- A json-tagged fence whose interior has no brace at all. -/
def exFenceNoBrace : String := "```json\nabc\n```"

/-- An input with leading whitespace and no recoverable JSON. -/
def exLeadingWs : String := "   plain"

/-- A text with one upper-case and one lower-case marker occurrence. -/
def exTwoMarkers : String :=
  "NOTA DE NEGOCIAÇÃO first part\nnota de negociação second part "

/-- The table used in the C7 witness. -/
def exTableC7 : TableInfo :=
  ⟨7, 1, Option.none, some [["a", "b"], ["c, x", "d\"e"]]⟩

/-- A table whose write branch (csv/html/json — the branches without
their own handler) would raise. -/
def writeFailB (env : SaveEnv) (output_dir : String) (t : ProcessedTable) : Bool :=
  (t.format == "csv" && !env.writeOk (tableFileName output_dir t.id "csv")) ||
  (t.format == "html" && !env.writeOk (tableFileName output_dir t.id "html")) ||
  (t.format == "json" && !env.writeOk (tableFileName output_dir t.id "json"))

/-- The path grouping the spec promises: one file per table per its
format, with excel tables included only when their conversion
succeeds. -/
def specSavedFiles (env : SaveEnv) (output_dir : String)
    (tables : List ProcessedTable) : SavedFiles :=
  { csv := tables.filterMap (fun t =>
      if t.format = "csv" then some (tableFileName output_dir t.id "csv")
      else Option.none),
    excel := tables.filterMap (fun t =>
      if t.format = "excel" ∧ env.excelOk (tableFileName output_dir t.id "xlsx") = true
      then some (tableFileName output_dir t.id "xlsx") else Option.none),
    json := tables.filterMap (fun t =>
      if t.format = "json" then some (tableFileName output_dir t.id "json")
      else Option.none),
    html := tables.filterMap (fun t =>
      if t.format = "html" then some (tableFileName output_dir t.id "html")
      else Option.none) }

/-- The environment of the C8 witness: directory creation and all plain
writes succeed, but the excel conversion of table 2 fails. -/
def envC8w : SaveEnv :=
  ⟨true, fun _ => true, fun fn => fn != "out/table_2.xlsx"⟩

/-- The environment of the C8 counterexample: the write of table 1's
json file raises, the write of table 2's would succeed. -/
def envC8cex : SaveEnv :=
  ⟨true, fun fn => fn != "tables_output/table_1.json", fun _ => true⟩

/-- The example short result of the C9 witness: one (empty) trade
object, so one trade against two `1-BOVESPA` occurrences. -/
def exShortResult : PyVal :=
  .dict [("trades", .list [.dict []]), ("fees", .list [])]

/-- The response text carrying `exShortResult`. -/
def exShortContent : String := "\x7b\"trades\": [\x7b\x7d], \"fees\": []\x7d"

/-- A `json.loads` oracle for the C9 witness. -/
def parseC9 : String → Option PyVal :=
  fun s => if s == exShortContent then some exShortResult else Option.none

/-! ## Theorems -/

theorem strMk_data (s : String) : String.mk s.data = s := rfl

theorem isOkE_iff {ε α : Type} (x : Except ε α) :
    isOkE x = true ↔ ∃ a, x = .ok a := by
  cases x <;> simp [isOkE]

theorem isOkE_unit {ε : Type} (x : Except ε Unit) (h : isOkE x = true) :
    x = .ok () := by
  cases x with
  | ok u => cases u; rfl
  | error e => simp [isOkE] at h

/-- The quantity check of `_validate_trade` (the `isinstance(..., int)`
guard with the `<= 0` comparison) is the negation of the spec's
positive-integer condition under Python's numeric tower. -/
theorem quantity_check_eq (v : PyVal) :
    (!(pyIsInstInt v) || pyLe v 0) = !(posIntPy v) := by
  cases v with
  | int n =>
    simp only [pyIsInstInt, pyLe, pyNumVal, posIntPy, Bool.not_false, Bool.false_or]
    rcases lt_or_le 0 n with h | h
    · have : ¬ ((n : Rat) ≤ 0) := by exact_mod_cast not_le.mpr (by exact_mod_cast h)
      simp [h, this]
    · have : (n : Rat) ≤ 0 := by exact_mod_cast h
      simp [this, not_lt.mpr h]
  | bool b => cases b <;> simp [pyIsInstInt, pyLe, pyNumVal, posIntPy]
  | float q => simp [pyIsInstInt, pyLe, posIntPy]
  | str s => simp [pyIsInstInt, pyLe, pyNumVal, posIntPy]
  | none => simp [pyIsInstInt, pyLe, pyNumVal, posIntPy]
  | list xs => simp [pyIsInstInt, pyLe, pyNumVal, posIntPy]
  | dict kvs => simp [pyIsInstInt, pyLe, pyNumVal, posIntPy]

/-- The price / totalValue check of `_validate_trade` is the negation of
the spec's positive-number condition. -/
theorem posnum_check_eq (v : PyVal) :
    (!(pyIsInstNum v) || pyLe v 0) = !(posNumPy v) := by
  cases v with
  | int n =>
    simp only [pyIsInstNum, pyLe, pyNumVal, posNumPy, Bool.not_false, Bool.false_or]
    rcases lt_or_le 0 n with h | h
    · have : ¬ ((n : Rat) ≤ 0) := by exact_mod_cast not_le.mpr (by exact_mod_cast h)
      simp [h, this]
    · have : (n : Rat) ≤ 0 := by exact_mod_cast h
      simp [this, not_lt.mpr h]
  | float q =>
    simp only [pyIsInstNum, pyLe, pyNumVal, posNumPy, Bool.not_false, Bool.false_or]
    rcases lt_or_le 0 q with h | h
    · simp [h, not_le.mpr h]
    · simp [h, not_lt.mpr h]
  | bool b => cases b <;> simp [pyIsInstNum, pyLe, pyNumVal, posNumPy]
  | str s => simp [pyIsInstNum, pyLe, pyNumVal, posNumPy]
  | none => simp [pyIsInstNum, pyLe, pyNumVal, posNumPy]
  | list xs => simp [pyIsInstNum, pyLe, pyNumVal, posNumPy]
  | dict kvs => simp [pyIsInstNum, pyLe, pyNumVal, posNumPy]

/-- The totalFees check of `_validate_fee` is the negation of the spec's
non-negative-number condition. -/
theorem nonneg_check_eq (v : PyVal) :
    (!(pyIsInstNum v) || pyLt v 0) = !(nonNegNumPy v) := by
  cases v with
  | int n =>
    simp only [pyIsInstNum, pyLt, pyNumVal, nonNegNumPy, Bool.not_false, Bool.false_or]
    rcases lt_or_le n 0 with h | h
    · have : (n : Rat) < 0 := by exact_mod_cast h
      simp [this, not_le.mpr h]
    · have : ¬ ((n : Rat) < 0) := by exact_mod_cast not_lt.mpr (by exact_mod_cast h)
      simp [this, h]
  | float q =>
    simp only [pyIsInstNum, pyLt, pyNumVal, nonNegNumPy, Bool.not_false, Bool.false_or]
    rcases lt_or_le q 0 with h | h
    · simp [h, not_le.mpr h]
    · simp [h, not_lt.mpr h]
  | bool b => cases b <;> simp [pyIsInstNum, pyLt, pyNumVal, nonNegNumPy]
  | str s => simp [pyIsInstNum, pyLt, pyNumVal, nonNegNumPy]
  | none => simp [pyIsInstNum, pyLt, pyNumVal, nonNegNumPy]
  | list xs => simp [pyIsInstNum, pyLt, pyNumVal, nonNegNumPy]
  | dict kvs => simp [pyIsInstNum, pyLt, pyNumVal, nonNegNumPy]

/-- The required-fields loop succeeds on a dict exactly when every field
is present. -/
theorem check_fields_isOk (label : String) (i : Nat)
    (kvs : List (String × PyVal)) (fs : List String) :
    isOkE (check_fields label i (.dict kvs) fs) =
      fs.all (fun f => (dictLookup kvs f).isSome) := by
  induction fs with
  | nil => rfl
  | cons f fs ih =>
    simp only [check_fields, pyIn, List.all_cons]
    cases h : (dictLookup kvs f).isSome
    · simp [h, isOkE]
    · simp only [h, Bool.true_and]
      exact ih

/-- A trade accepted by `_validate_trade` is a dict. -/
theorem validate_trade_ok_isDict {t : PyVal} {i : Nat}
    (h : isOkE (validate_trade t i) = true) : pyIsDict t = true := by
  by_contra hd
  have hget : pyGet t "operationType" = .error "TypeError: indices must be integers" := by
    cases t <;> first | rfl | (exact absurd rfl hd)
  cases hcf : check_fields "Trade" i t requiredTradeFields with
  | error e => rw [validate_trade, hcf] at h; simp [isOkE] at h
  | ok u => rw [validate_trade, hcf, hget] at h; simp [isOkE] at h

/-- `_validate_trade` accepts exactly the trades satisfying the spec's
§4.5 per-trade conditions (read over Python's numeric tower). -/
theorem validate_trade_iff (t : PyVal) (i : Nat) :
    isOkE (validate_trade t i) = true ↔ spec_trade_ok t = true := by
  constructor
  · intro h
    have hd := validate_trade_ok_isDict h
    obtain ⟨kvs, rfl⟩ : ∃ kvs, t = .dict kvs := by
      cases t <;> simp [pyIsDict] at hd <;> exact ⟨_, rfl⟩
    by_cases hall : requiredTradeFields.all (fun f => (dictLookup kvs f).isSome) = true
    · have hcf : check_fields "Trade" i (.dict kvs) requiredTradeFields = .ok () := by
        apply isOkE_unit; rw [check_fields_isOk]; exact hall
      have hall9 := hall
      simp only [requiredTradeFields, List.all_cons, List.all_nil, Bool.and_true,
        Bool.and_eq_true, Option.isSome_iff_exists] at hall9
      obtain ⟨⟨_, hon⟩, ⟨_, hdt⟩, ⟨vop, hop⟩, ⟨_, hmt⟩, ⟨vmk, hmk⟩, ⟨_, htk⟩,
        ⟨vq, hq⟩, ⟨vp, hp⟩, ⟨vt, htv⟩⟩ := hall9
      rw [validate_trade, hcf] at h
      simp only [pyGet, hop, hmk, hq, hp, htv] at h
      rw [quantity_check_eq, posnum_check_eq, posnum_check_eq] at h
      simp only [spec_trade_ok, hall, hop, hmk, hq, hp, htv, Option.any_some,
        Bool.true_and]
      by_cases h1 : (vop == PyVal.str "C" || vop == PyVal.str "V") = true
      · rw [if_neg (by simp [h1])] at h
        by_cases h2 : (vmk == PyVal.str "BOVESPA" || vmk == PyVal.str "BMF") = true
        · rw [if_neg (by simp [h2])] at h
          by_cases h3 : posIntPy vq = true
          · rw [if_neg (by simp [h3])] at h
            by_cases h4 : posNumPy vp = true
            · rw [if_neg (by simp [h4])] at h
              by_cases h5 : posNumPy vt = true
              · simp [h1, h2, h3, h4, h5]
              · rw [if_pos (by simp [h5])] at h; simp [isOkE] at h
            · rw [if_pos (by simp [h4])] at h; simp [isOkE] at h
          · rw [if_pos (by simp [h3])] at h; simp [isOkE] at h
        · rw [if_pos (by simp [h2])] at h; simp [isOkE] at h
      · rw [if_pos (by simp [h1])] at h; simp [isOkE] at h
    · exfalso
      have := check_fields_isOk "Trade" i kvs requiredTradeFields
      cases hcf : check_fields "Trade" i (.dict kvs) requiredTradeFields with
      | error e => rw [validate_trade, hcf] at h; simp [isOkE] at h
      | ok u =>
        rw [hcf] at this
        simp only [isOkE] at this
        exact hall this.symm
  · intro h
    obtain ⟨kvs, rfl⟩ : ∃ kvs, t = .dict kvs := by
      cases t <;> simp [spec_trade_ok] at h <;> exact ⟨_, rfl⟩
    simp only [spec_trade_ok, Bool.and_eq_true] at h
    obtain ⟨⟨⟨⟨⟨hall, h1⟩, h2⟩, h3⟩, h4⟩, h5⟩ := h
    have hcf : check_fields "Trade" i (.dict kvs) requiredTradeFields = .ok () := by
      apply isOkE_unit; rw [check_fields_isOk]; exact hall
    have hall9 := hall
    simp only [requiredTradeFields, List.all_cons, List.all_nil, Bool.and_true,
      Bool.and_eq_true, Option.isSome_iff_exists] at hall9
    obtain ⟨⟨_, hon⟩, ⟨_, hdt⟩, ⟨vop, hop⟩, ⟨_, hmt⟩, ⟨vmk, hmk⟩, ⟨_, htk⟩,
      ⟨vq, hq⟩, ⟨vp, hp⟩, ⟨vt, htv⟩⟩ := hall9
    rw [hop, Option.any_some] at h1
    rw [hmk, Option.any_some] at h2
    rw [hq, Option.any_some] at h3
    rw [hp, Option.any_some] at h4
    rw [htv, Option.any_some] at h5
    rw [validate_trade, hcf]
    simp only [pyGet, hop, hmk, hq, hp, htv]
    rw [quantity_check_eq, posnum_check_eq, posnum_check_eq]
    rw [if_neg (by simp [h1]), if_neg (by simp [h2]), if_neg (by simp [h3]),
      if_neg (by simp [h4]), if_neg (by simp [h5])]
    rfl

/-- A fee accepted by `_validate_fee` is a dict. -/
theorem validate_fee_ok_isDict {f : PyVal} {i : Nat}
    (h : isOkE (validate_fee f i) = true) : pyIsDict f = true := by
  by_contra hd
  have hget : pyGet f "totalFees" = .error "TypeError: indices must be integers" := by
    cases f <;> first | rfl | (exact absurd rfl hd)
  cases hcf : check_fields "Fee" i f requiredFeeFields with
  | error e => rw [validate_fee, hcf] at h; simp [isOkE] at h
  | ok u => rw [validate_fee, hcf, hget] at h; simp [isOkE] at h

/-- `_validate_fee` accepts exactly the fees satisfying the spec's §4.5
per-fee conditions. -/
theorem validate_fee_iff (f : PyVal) (i : Nat) :
    isOkE (validate_fee f i) = true ↔ spec_fee_ok f = true := by
  constructor
  · intro h
    have hd := validate_fee_ok_isDict h
    obtain ⟨kvs, rfl⟩ : ∃ kvs, f = .dict kvs := by
      cases f <;> simp [pyIsDict] at hd <;> exact ⟨_, rfl⟩
    by_cases hall : requiredFeeFields.all (fun g => (dictLookup kvs g).isSome) = true
    · have hcf : check_fields "Fee" i (.dict kvs) requiredFeeFields = .ok () := by
        apply isOkE_unit; rw [check_fields_isOk]; exact hall
      have hall2 := hall
      simp only [requiredFeeFields, List.all_cons, List.all_nil, Bool.and_true,
        Bool.and_eq_true, Option.isSome_iff_exists] at hall2
      obtain ⟨⟨_, hon⟩, ⟨vtf, htf⟩⟩ := hall2
      rw [validate_fee, hcf] at h
      simp only [pyGet, htf] at h
      rw [nonneg_check_eq] at h
      simp only [spec_fee_ok, hall, htf, Option.any_some, Bool.true_and]
      by_cases h1 : nonNegNumPy vtf = true
      · exact h1
      · rw [if_pos (by simp [h1])] at h; simp [isOkE] at h
    · exfalso
      have := check_fields_isOk "Fee" i kvs requiredFeeFields
      cases hcf : check_fields "Fee" i (.dict kvs) requiredFeeFields with
      | error e => rw [validate_fee, hcf] at h; simp [isOkE] at h
      | ok u =>
        rw [hcf] at this
        simp only [isOkE] at this
        exact hall this.symm
  · intro h
    obtain ⟨kvs, rfl⟩ : ∃ kvs, f = .dict kvs := by
      cases f <;> simp [spec_fee_ok] at h <;> exact ⟨_, rfl⟩
    simp only [spec_fee_ok, Bool.and_eq_true] at h
    obtain ⟨hall, h1⟩ := h
    have hcf : check_fields "Fee" i (.dict kvs) requiredFeeFields = .ok () := by
      apply isOkE_unit; rw [check_fields_isOk]; exact hall
    have hall2 := hall
    simp only [requiredFeeFields, List.all_cons, List.all_nil, Bool.and_true,
      Bool.and_eq_true, Option.isSome_iff_exists] at hall2
    obtain ⟨⟨_, hon⟩, ⟨vtf, htf⟩⟩ := hall2
    rw [htf, Option.any_some] at h1
    rw [validate_fee, hcf]
    simp only [pyGet, htf]
    rw [nonneg_check_eq, if_neg (by simp [h1])]
    rfl

/-- The trade loop accepts exactly when every trade does. -/
theorem validate_trades_from_iff (ts : List PyVal) (i : Nat) :
    isOkE (validate_trades_from i ts) = true ↔ ts.all spec_trade_ok = true := by
  induction ts generalizing i with
  | nil => simp [validate_trades_from, isOkE]
  | cons t ts ih =>
    simp only [validate_trades_from, List.all_cons, Bool.and_eq_true]
    cases hv : validate_trade t i with
    | error e =>
      have : ¬ (spec_trade_ok t = true) := by
        rw [← validate_trade_iff t i, hv]; simp [isOkE]
      simp [isOkE, this]
    | ok u =>
      have : spec_trade_ok t = true := by
        rw [← validate_trade_iff t i, hv]; cases u; rfl
      simp [this, ih]

/-- The fee loop accepts exactly when every fee does. -/
theorem validate_fees_from_iff (fs : List PyVal) (i : Nat) :
    isOkE (validate_fees_from i fs) = true ↔ fs.all spec_fee_ok = true := by
  induction fs generalizing i with
  | nil => simp [validate_fees_from, isOkE]
  | cons f fs ih =>
    simp only [validate_fees_from, List.all_cons, Bool.and_eq_true]
    cases hv : validate_fee f i with
    | error e =>
      have : ¬ (spec_fee_ok f = true) := by
        rw [← validate_fee_iff f i, hv]; simp [isOkE]
      simp [isOkE, this]
    | ok u =>
      have : spec_fee_ok f = true := by
        rw [← validate_fee_iff f i, hv]; cases u; rfl
      simp [this, ih]

/-- The inner validator accepts exactly the results satisfying the
spec's §4.5 conditions. -/
theorem validate_inner_iff (r : PyVal) :
    isOkE (validate_extraction_result_inner r) = true ↔ spec_result_ok r = true := by
  cases r with
  | dict kvs =>
    simp only [validate_extraction_result_inner, pyIsDict, Bool.not_true,
      Bool.false_eq_true, if_false, pyIn, spec_result_ok]
    cases ht : dictLookup kvs "trades" with
    | none => simp [pyGet, ht, isOkE]
    | some tv =>
      cases hf : dictLookup kvs "fees" with
      | none => simp [pyGet, ht, hf, isOkE]
      | some fv =>
        simp only [ht, hf, Option.isSome_some, Bool.and_self, Bool.not_true,
          Bool.false_eq_true, if_false, pyGet]
        cases tv with
        | list ts =>
          simp only [pyIsList, Bool.not_true, Bool.false_eq_true, if_false]
          cases hvt : validate_trades_from 0 ts with
          | error e =>
            have : ¬ (ts.all spec_trade_ok = true) := by
              rw [← validate_trades_from_iff ts 0, hvt]; simp [isOkE]
            cases fv <;> simp [isOkE, this]
          | ok u =>
            have hts : ts.all spec_trade_ok = true := by
              rw [← validate_trades_from_iff ts 0, hvt]; cases u; rfl
            cases fv with
            | list fs =>
              simp only [pyIsList, Bool.not_true, Bool.false_eq_true, if_false,
                hts, Bool.true_and]
              exact validate_fees_from_iff fs 0
            | str s => simp [pyIsList, isOkE]
            | int n => simp [pyIsList, isOkE]
            | float q => simp [pyIsList, isOkE]
            | bool b => simp [pyIsList, isOkE]
            | none => simp [pyIsList, isOkE]
            | dict kvs2 => simp [pyIsList, isOkE]
        | str s => cases fv <;> simp [pyIsList, isOkE]
        | int n => cases fv <;> simp [pyIsList, isOkE]
        | float q => cases fv <;> simp [pyIsList, isOkE]
        | bool b => cases fv <;> simp [pyIsList, isOkE]
        | none => cases fv <;> simp [pyIsList, isOkE]
        | dict kvs2 => cases fv <;> simp [pyIsList, isOkE]
  | str s => simp [validate_extraction_result_inner, pyIsDict, spec_result_ok, isOkE]
  | int n => simp [validate_extraction_result_inner, pyIsDict, spec_result_ok, isOkE]
  | float q => simp [validate_extraction_result_inner, pyIsDict, spec_result_ok, isOkE]
  | bool b => simp [validate_extraction_result_inner, pyIsDict, spec_result_ok, isOkE]
  | none => simp [validate_extraction_result_inner, pyIsDict, spec_result_ok, isOkE]
  | list xs => simp [validate_extraction_result_inner, pyIsDict, spec_result_ok, isOkE]

/-- The outer wrapper succeeds exactly when the inner validator does. -/
theorem validate_result_isOk (r : PyVal) :
    isOkE (validate_extraction_result r) = isOkE (validate_extraction_result_inner r) := by
  unfold validate_extraction_result
  cases validate_extraction_result_inner r <;> rfl

/-- C2 (amended): `_validate_extraction_result` accepts a parsed result
iff it is an object with `trades` and `fees` lists, every trade carries
the nine required fields with `operationType` in `{C, V}`, `market` in
`{BOVESPA, BMF}`, a positive-integer quantity and positive-number price
and totalValue, and every fee carries an order id and a non-negative
totalFees number — where, as everywhere in Python, booleans count as
integers (`True` = 1).  On success the result object is returned
unchanged (so acceptance is all-or-nothing), and the first violation
determines the raised error, which names the offending index and field:
on `exResultFirstViolation` (trade 0 valid, trade 1 missing `ticker`,
trade 2 also invalid) the error names trade 1 and `ticker`. -/
theorem claim_C2_validator_iff (r : PyVal) :
    (isOkE (validate_extraction_result r) = true ↔ spec_result_ok r = true) ∧
    (∀ v, validate_extraction_result r = .ok v → v = r) ∧
    validate_extraction_result exResultFirstViolation =
      .error "Resultado da extração inválido: Trade 1: campo obrigatório 'ticker' ausente" := by
  refine ⟨?_, ?_, ?_⟩
  · rw [validate_result_isOk]
    exact validate_inner_iff r
  · intro v hv
    unfold validate_extraction_result at hv
    cases h : validate_extraction_result_inner r with
    | ok u => rw [h] at hv; exact ((Except.ok.injEq _ _).mp hv).symm
    | error e => rw [h] at hv; exact absurd hv (by simp)
  · rfl

/-- Witness for C2: the amended equivalence applied to a concrete
well-formed result. -/
theorem claim_C2_validator_iff_witness :
    isOkE (validate_extraction_result exResultGood) = true :=
  (claim_C2_validator_iff exResultGood).1.mpr (by decide)

/-- Counterexample to C2 as stated: a result whose trade has the
boolean `True` as quantity is accepted by the validator, although under
the claim's strict reading `true` is not a positive integer — so
"accepts only if quantity is a positive integer" fails. -/
theorem claim_C2_counterexample :
    isOkE (validate_extraction_result exResultBoolQty) = true ∧
    spec_result_ok_strict exResultBoolQty = false := ⟨rfl, rfl⟩

/-- C10: there is an input the trade validator accepts in which
`quantity` is the boolean `True` (and `totalFees` the boolean `False`):
because `isinstance(True, int)` holds in Python, the positive-integer
rule admits booleans at the public interface, although `True` is not an
integer value proper (`posIntStrict` rejects it). -/
theorem claim_C10_bool_accepted :
    validate_extraction_result exResultBoolQtyC10 = .ok exResultBoolQtyC10 ∧
    pyGet exTradeBoolQtyC10 "quantity" = .ok (.bool true) ∧
    posIntStrict (.bool true) = false ∧
    pyIsInstInt (.bool true) = true := ⟨rfl, rfl, rfl, rfl⟩

/-- `hasSubB` is the defined-ness of `findSub`. -/
theorem hasSubB_eq_isSome (pat cs : List Char) :
    hasSubB pat cs = (findSub pat cs).isSome := by
  induction cs with
  | nil =>
    simp only [hasSubB, findSub]
    cases h : List.isPrefixOf pat [] <;> simp [h]
  | cons c rest ih =>
    simp only [hasSubB, findSub]
    cases h : List.isPrefixOf pat (c :: rest) <;> simp [h, ih]

/-- Soundness of `findSub`: a reported index is a match. -/
theorem findSub_sound (pat : List Char) :
    ∀ (cs : List Char) (i : Nat), findSub pat cs = some i →
      List.isPrefixOf pat (cs.drop i) = true := by
  intro cs
  induction cs with
  | nil =>
    intro i h
    simp only [findSub] at h
    split at h
    · rename_i hp
      cases h
      rw [List.drop_nil]
      exact hp
    · cases h
  | cons c rest ih =>
    intro i h
    simp only [findSub] at h
    split at h
    · rename_i hp
      cases h
      rw [List.drop_zero]
      exact hp
    · cases hr : findSub pat rest with
      | none => rw [hr] at h; cases h
      | some j =>
        rw [hr] at h
        replace h : j + 1 = i := by simpa using h
        subst h
        rw [List.drop_succ_cons]
        exact ih j hr

/-- Completeness of `hasSubB`: a match anywhere makes it true. -/
theorem hasSubB_of_prefix (pat : List Char) :
    ∀ (cs : List Char) (i : Nat),
      List.isPrefixOf pat (cs.drop i) = true → hasSubB pat cs = true := by
  intro cs
  induction cs with
  | nil =>
    intro i h
    simp only [List.drop_nil] at h
    simp [hasSubB, h]
  | cons c rest ih =>
    intro i h
    cases i with
    | zero =>
      simp only [List.drop_zero] at h
      simp [hasSubB, h]
    | succ j =>
      simp only [List.drop_succ_cons] at h
      simp [hasSubB, ih j h]

/-- A singleton pattern at the head of a list pins its first element. -/
theorem subAt_single {x : Char} {cs : List Char} (h : subAt [x] cs = true) :
    ∃ rest, cs = x :: rest := by
  cases cs with
  | nil => simp [subAt, List.isPrefixOf] at h
  | cons a rest =>
    simp [subAt, List.isPrefixOf] at h
    exact ⟨rest, by simp [h]⟩

/-- A brace-delimited list with at least two characters has a brace
pair. -/
theorem hasBracePair_of_delimited (cs : List Char)
    (h1 : subAt [lbrace] cs = true) (h2 : subAt [rbrace] cs.reverse = true) :
    hasBracePair cs = true := by
  obtain ⟨rest, rfl⟩ := subAt_single h1
  obtain ⟨r2, hrev⟩ := subAt_single h2
  have hf : findSub [lbrace] (lbrace :: rest) = some 0 := by
    simp [findSub, List.isPrefixOf]
  have hfr : findSub [rbrace] (rbrace :: r2) = some 0 := by
    simp [findSub, List.isPrefixOf]
  have hlast : findLastChar rbrace (lbrace :: rest) = some rest.length := by
    unfold findLastChar
    rw [hrev, hfr]
    have hlen2 : (lbrace :: rest).length = r2.length + 1 := by
      rw [← List.length_reverse (lbrace :: rest), hrev, List.length_cons]
    simp
  have hlen : rest ≠ [] := by
    intro hnil
    subst hnil
    simp only [List.reverse_cons, List.reverse_nil, List.nil_append,
      List.cons.injEq] at hrev
    have : lbrace ≠ rbrace := by decide
    exact this hrev.1
  unfold hasBracePair
  rw [hf, hlast]
  simp only [decide_eq_true_eq]
  exact List.length_pos.mpr hlen

/-- C3 (amended): JSON recovery tries the four strategies in order (the
definition of `extract_json_from_response` is that ordered cascade), and
on the four input shapes — bare object, json-tagged fence, plain fence,
noise-surrounded object — it returns the embedded object, which is
parseable JSON; for input whose stripped text contains no ```` ``` ````
fence and no `{`/`}` pair, it fails with an error carrying the first 200
characters of the *stripped* content. -/
theorem claim_C3_json_recovery (content : String) :
    (extract_json_from_response exJsonBody = .ok exJsonBody ∧
      isJsonValue exJsonBody = true) ∧
    extract_json_from_response exShapeFencedJson = .ok exJsonBody ∧
    extract_json_from_response exShapePlainFence = .ok exJsonBody ∧
    extract_json_from_response exShapeNoise = .ok exJsonBody ∧
    (hasSubB fenceTicks (pyStrip content.data) = false →
      hasBracePair (pyStrip content.data) = false →
      extract_json_from_response content =
        .error (extractJsonFailMsg (pyStrip content.data))) := by
  refine ⟨⟨rfl, rfl⟩, rfl, rfl, rfl, ?_⟩
  intro hfence hbrace
  have hnot1 : ¬ (subAt [lbrace] (pyStrip content.data) = true ∧
      subAt [rbrace] (pyStrip content.data).reverse = true) := by
    rintro ⟨ha, hb⟩
    rw [hasBracePair_of_delimited _ ha hb] at hbrace
    cases hbrace
  have hjf : findSub fenceJson (pyStrip content.data) = Option.none := by
    cases h : findSub fenceJson (pyStrip content.data) with
    | none => rfl
    | some i =>
      exfalso
      have hp := findSub_sound _ _ _ h
      have htp : List.isPrefixOf fenceTicks ((pyStrip content.data).drop i) = true := by
        have hpre : fenceTicks <+: fenceJson := by decide
        have hsuf : fenceJson <+: (pyStrip content.data).drop i := by
          simpa [List.isPrefixOf_iff_prefix] using hp
        simpa [List.isPrefixOf_iff_prefix] using hpre.trans hsuf
      have := hasSubB_of_prefix fenceTicks (pyStrip content.data) i htp
      rw [hfence] at this
      cases this
  have hticks : findSub fenceTicks (pyStrip content.data) = Option.none := by
    cases h : findSub fenceTicks (pyStrip content.data) with
    | none => rfl
    | some i =>
      rw [hasSubB_eq_isSome, h] at hfence
      cases hfence
  have h2 : tryJsonFence (pyStrip content.data) = Option.none := by
    unfold tryJsonFence
    rw [hjf]
  have h3 : tryAnyFence (pyStrip content.data) = Option.none := by
    unfold tryAnyFence
    rw [hticks]
  have h4 : tryBraceSlice (pyStrip content.data) = Option.none := by
    unfold tryBraceSlice
    cases hl : findSub [lbrace] (pyStrip content.data) with
    | none => rfl
    | some f =>
      cases hr : findLastChar rbrace (pyStrip content.data) with
      | none => rfl
      | some l =>
        unfold hasBracePair at hbrace
        rw [hl, hr] at hbrace
        simp only [decide_eq_false_iff_not] at hbrace
        simp [hbrace]
  show (let cs := pyStrip content.data
    if subAt [lbrace] cs ∧ subAt [rbrace] cs.reverse then
      Except.ok (String.mk (removeJsComments cs))
    else
      match tryJsonFence cs with
      | some js => Except.ok (String.mk js)
      | Option.none =>
        match tryAnyFence cs with
        | some js => Except.ok (String.mk js)
        | Option.none =>
          match tryBraceSlice cs with
          | some js => Except.ok (String.mk js)
          | Option.none => Except.error (extractJsonFailMsg cs)) =
    Except.error (extractJsonFailMsg (pyStrip content.data))
  simp only []
  rw [if_neg hnot1, h2, h3, h4]

/-- Witness for C3: the failure clause at a concrete fence-free,
brace-free input. -/
theorem claim_C3_json_recovery_witness :
    extract_json_from_response "plain text, no json here" =
      .error (extractJsonFailMsg (pyStrip "plain text, no json here".data)) :=
  (claim_C3_json_recovery "plain text, no json here").2.2.2.2 (by decide) (by decide)

/-- Counterexample to C3 as stated: `exFenceNoBrace` contains no
`{`/`}` pair, yet recovery succeeds (returning the fence interior
`"abc"`) instead of failing; moreover, on a failing input with leading
whitespace the error snippet is taken from the *stripped* content, not
the original. -/
theorem claim_C3_counterexample :
    hasBracePair (pyStrip exFenceNoBrace.data) = false ∧
    extract_json_from_response exFenceNoBrace = .ok "abc" ∧
    extract_json_from_response exLeadingWs =
      .error (extractJsonFailMsg "plain".data) ∧
    List.take 200 exLeadingWs.data ≠ "plain".data := by
  refine ⟨rfl, rfl, rfl, by decide⟩

/-- If the pattern matches nowhere, the scanner finds nothing. -/
theorem findOccsFrom_eq_nil (eq : Char → Char → Bool) (pat : List Char) :
    ∀ (text : List Char) (ofs skip : Nat),
      (∀ i, matchesAt eq pat (text.drop i) = false) →
      findOccsFrom eq pat text ofs skip = [] := by
  intro text
  induction text with
  | nil => intro ofs skip _; rw [findOccsFrom]
  | cons c rest ih =>
    intro ofs skip h
    have htail : ∀ i, matchesAt eq pat (rest.drop i) = false := fun i => by
      have := h (i + 1)
      rwa [List.drop_succ_cons] at this
    cases skip with
    | succ sk =>
      rw [findOccsFrom]
      exact ih (ofs + 1) sk htail
    | zero =>
      rw [findOccsFrom]
      have h0 := h 0
      rw [List.drop_zero] at h0
      rw [if_neg (by simp [h0])]
      exact ih (ofs + 1) 0 htail

/-- Conversely, an empty unsuppressed scan means the pattern matches
nowhere. -/
theorem no_match_of_findOccsFrom_eq_nil (eq : Char → Char → Bool)
    (pat : List Char) (hp : pat ≠ []) :
    ∀ (text : List Char) (ofs : Nat),
      findOccsFrom eq pat text ofs 0 = [] →
      ∀ i, matchesAt eq pat (text.drop i) = false := by
  have hempty : matchesAt eq pat [] = false := by
    cases pat with
    | nil => exact absurd rfl hp
    | cons p ps => rfl
  intro text
  induction text with
  | nil =>
    intro ofs _ i
    rw [List.drop_nil]
    exact hempty
  | cons c rest ih =>
    intro ofs h i
    rw [findOccsFrom] at h
    by_cases hm : matchesAt eq pat (c :: rest) = true
    · rw [if_pos (by simp [hm])] at h
      cases h
    · rw [if_neg (by simp [hm])] at h
      cases i with
      | zero =>
        rw [List.drop_zero]
        simpa using hm
      | succ j =>
        rw [List.drop_succ_cons]
        exact ih (ofs + 1) h j

/-- Soundness and sortedness of the scanner: every reported offset is at
or after the running offset plus the suppression counter, the pattern
matches at every reported offset, and offsets strictly increase. -/
theorem findOccsFrom_spec (eq : Char → Char → Bool) (pat : List Char)
    (hp : 1 ≤ pat.length) :
    ∀ (text : List Char) (ofs skip : Nat),
      (∀ p ∈ findOccsFrom eq pat text ofs skip,
        ofs + skip ≤ p ∧ matchesAt eq pat (text.drop (p - ofs)) = true) ∧
      List.Chain' (· < ·) (findOccsFrom eq pat text ofs skip) := by
  intro text
  induction text with
  | nil =>
    intro ofs skip
    rw [findOccsFrom]
    exact ⟨(by intro p hpme; cases hpme), List.chain'_nil⟩
  | cons c rest ih =>
    intro ofs skip
    have tailstep : ∀ (skip2 : Nat) (p : Nat),
        p ∈ findOccsFrom eq pat rest (ofs + 1) skip2 →
        ofs + 1 + skip2 ≤ p ∧ matchesAt eq pat ((c :: rest).drop (p - ofs)) = true := by
      intro skip2 p hpme
      obtain ⟨hge, hmatch⟩ := (ih (ofs + 1) skip2).1 p hpme
      refine ⟨hge, ?_⟩
      have h1 : p - ofs = (p - (ofs + 1)) + 1 := by omega
      rw [h1, List.drop_succ_cons]
      exact hmatch
    cases skip with
    | succ sk =>
      rw [findOccsFrom]
      constructor
      · intro p hpme
        obtain ⟨hge, hmatch⟩ := tailstep sk p hpme
        exact ⟨by omega, hmatch⟩
      · exact (ih (ofs + 1) sk).2
    | zero =>
      rw [findOccsFrom]
      by_cases hm : matchesAt eq pat (c :: rest) = true
      · rw [if_pos (by simp [hm])]
        constructor
        · intro p hpme
          rcases List.mem_cons.mp hpme with rfl | htail
          · refine ⟨by omega, ?_⟩
            rw [Nat.sub_self, List.drop_zero]
            exact hm
          · obtain ⟨hge, hmatch⟩ := tailstep (pat.length - 1) p htail
            exact ⟨by omega, hmatch⟩
        · cases hocc : findOccsFrom eq pat rest (ofs + 1) (pat.length - 1) with
          | nil => simp
          | cons q qs =>
            have ihchain := (ih (ofs + 1) (pat.length - 1)).2
            rw [hocc] at ihchain
            refine List.chain'_cons.mpr ⟨?_, ihchain⟩
            have := (tailstep (pat.length - 1) q (by rw [hocc]; exact List.mem_cons_self _ _)).1
            omega
      · rw [if_neg (by simp [hm])]
        constructor
        · intro p hpme
          obtain ⟨hge, hmatch⟩ := tailstep 0 p hpme
          exact ⟨by omega, hmatch⟩
        · exact (ih (ofs + 1) 0).2

/-- C4 (amended): when the boundary marker occurs nowhere
(case-insensitively) in the text, the Segmenter logs its soft warning
and returns exactly one span, indexed 1, whose text is the input
*unchanged* — the no-match branch returns `markdown` without
stripping. -/
theorem claim_C4_no_marker (markdown : String)
    (h : ∀ i, matchesAt ciEq notaMarker.data (markdown.data.drop i) = false) :
    split_by_nota_negociacao markdown = (true, [(1, markdown)]) := by
  unfold split_by_nota_negociacao
  rw [show findOccs ciEq notaMarker.data markdown.data = [] from
    findOccsFrom_eq_nil ciEq notaMarker.data markdown.data 0 0 h]

/-- Witness for C4 at a concrete marker-free input. -/
theorem claim_C4_no_marker_witness :
    split_by_nota_negociacao "  plain text  " = (true, [(1, "  plain text  ")]) :=
  claim_C4_no_marker "  plain text  "
    (no_match_of_findOccsFrom_eq_nil ciEq notaMarker.data (by decide)
      "  plain text  ".data 0 (by decide))

/-- Counterexample to C4 as stated: on a marker-free input with
surrounding whitespace the single span is the raw input, which differs
from the trimmed input the claim promises. -/
theorem claim_C4_counterexample :
    (split_by_nota_negociacao "  hello  ").2 = [(1, "  hello  ")] ∧
    pyStripStr "  hello  " ≠ "  hello  " := by
  constructor
  · rfl
  · decide

/-- The number of spans equals the number of matches. -/
theorem buildPages_length (cs : List Char) :
    ∀ (ms : List Nat) (i0 : Nat), (buildPages cs i0 ms).length = ms.length := by
  intro ms
  induction ms with
  | nil => intro i0; rfl
  | cons s1 tail ih =>
    intro i0
    cases tail with
    | nil => rfl
    | cons s2 rest =>
      rw [buildPages]
      simp only [List.length_cons]
      rw [ih (i0 + 1)]
      simp [List.length_cons]

/-- Dropping everything from a position to the end, phrased as a
slice. -/
theorem pySlice_to_end (cs : List Char) (s : Nat) :
    pySlice cs s cs.length = cs.drop s := by
  unfold pySlice
  have : (cs.drop s).length = cs.length - s := List.length_drop s cs
  rw [← this]
  exact List.take_length _

/-- Element-wise description of `buildPages`: span `j` is the stripped
slice from match `j` to match `j+1` (or to the end of the text), with
1-based index `i0 + j + 1`. -/
theorem buildPages_get? (cs : List Char) :
    ∀ (ms : List Nat) (i0 j : Nat),
      (buildPages cs i0 ms).get? j =
        match ms.get? j with
        | some s =>
          some (i0 + j + 1,
            String.mk (pyStrip (pySlice cs s ((ms.get? (j + 1)).getD cs.length))))
        | Option.none => Option.none := by
  intro ms
  induction ms with
  | nil => intro i0 j; cases j <;> rfl
  | cons s1 tail ih =>
    intro i0 j
    cases tail with
    | nil =>
      cases j with
      | zero =>
        show some (i0 + 1, String.mk (pyStrip (cs.drop s1))) = _
        simp only [List.get?, Option.getD_none, Nat.add_zero]
        rw [pySlice_to_end]
      | succ j2 => cases j2 <;> rfl
    | cons s2 rest =>
      cases j with
      | zero =>
        rw [buildPages]
        rfl
      | succ j2 =>
        rw [buildPages]
        show (buildPages cs (i0 + 1) (s2 :: rest)).get? j2 = _
        rw [ih (i0 + 1) j2]
        cases h : (s2 :: rest).get? j2 with
        | none => simp only [List.get?_cons_succ, h]
        | some s =>
          simp only [List.get?_cons_succ, h]
          have harith : i0 + 1 + j2 + 1 = i0 + (j2 + 1) + 1 := by omega
          rw [harith]

/-- C5: on a text with `k ≥ 1` case-insensitive marker occurrences the
Segmenter warns nothing and returns exactly `k` spans: span `j` (0-based
here) carries index `j + 1` and is the whitespace-stripped slice from
occurrence `j` to occurrence `j + 1` (to the end of the text for the
last); the occurrence offsets are genuine case-insensitive matches and
strictly increase, so the underlying marker-to-next-marker ranges are
adjacent, non-overlapping and covering. -/
theorem claim_C5_marker_spans (markdown : String) (k : Nat)
    (hk : (findOccs ciEq notaMarker.data markdown.data).length = k)
    (hpos : 0 < k) :
    (split_by_nota_negociacao markdown).1 = false ∧
    (split_by_nota_negociacao markdown).2.length = k ∧
    (∀ j, (split_by_nota_negociacao markdown).2.get? j =
      match (findOccs ciEq notaMarker.data markdown.data).get? j with
      | some s =>
        some (j + 1, String.mk (pyStrip (pySlice markdown.data s
          (((findOccs ciEq notaMarker.data markdown.data).get? (j + 1)).getD
            markdown.data.length))))
      | Option.none => Option.none) ∧
    (∀ p ∈ findOccs ciEq notaMarker.data markdown.data,
      matchesAt ciEq notaMarker.data (markdown.data.drop p) = true) ∧
    List.Chain' (· < ·) (findOccs ciEq notaMarker.data markdown.data) := by
  cases hms : findOccs ciEq notaMarker.data markdown.data with
  | nil =>
    rw [hms] at hk
    simp at hk
    omega
  | cons m0 mrest =>
    have hsplit : split_by_nota_negociacao markdown =
        (false, buildPages markdown.data 0 (m0 :: mrest)) := by
      unfold split_by_nota_negociacao
      rw [hms]
    have hspec := findOccsFrom_spec ciEq notaMarker.data (by decide)
      markdown.data 0 0
    rw [show findOccsFrom ciEq notaMarker.data markdown.data 0 0 =
      findOccs ciEq notaMarker.data markdown.data from rfl, hms] at hspec
    refine ⟨by rw [hsplit], ?_, ?_, ?_, hspec.2⟩
    · rw [hsplit]
      show (buildPages markdown.data 0 (m0 :: mrest)).length = k
      rw [buildPages_length]
      rw [hms] at hk
      exact hk
    · intro j
      rw [hsplit]
      show (buildPages markdown.data 0 (m0 :: mrest)).get? j = _
      rw [buildPages_get? markdown.data (m0 :: mrest) 0 j]
      cases h : (m0 :: mrest).get? j with
      | none => rfl
      | some sv =>
        simp only [Nat.zero_add]
    · intro p hpmem
      obtain ⟨_, hmatch⟩ := hspec.1 p hpmem
      rwa [Nat.sub_zero] at hmatch

/-- Witness for C5 at a concrete two-marker text. -/
theorem claim_C5_marker_spans_witness :
    (split_by_nota_negociacao exTwoMarkers).2.length = 2 ∧
    (split_by_nota_negociacao exTwoMarkers).1 = false :=
  ⟨(claim_C5_marker_spans exTwoMarkers 2 (by decide) (by decide)).2.1,
   (claim_C5_marker_spans exTwoMarkers 2 (by decide) (by decide)).1⟩

/-- C6: when the connectivity probe raises at construction time, the
cache is permanently disabled — construction still returns a state (the
exception is caught, so the host process is not failed), `enabled` is
false, every subsequent `get` returns absent and every `set` returns
false, whatever the store, the codec, the key, the value or the TTL. -/
theorem claim_C6_cache_disabled (msg : String) (ttl : Nat) :
    (cache_init true ttl (.error msg)).enabled = false ∧
    (∀ (redisGet : String → RedisReply (Option String))
        (decode : String → Option PyVal) (key : String),
      cache_get (cache_init true ttl (.error msg)) redisGet decode key =
        Option.none) ∧
    (∀ (redisSetex : String → Nat → String → RedisReply Bool)
        (encode : PyVal → Option String) (key : String) (value : PyVal)
        (ttl2 : Option Nat),
      cache_set (cache_init true ttl (.error msg)) redisSetex encode key value
        ttl2 = false) := by
  refine ⟨rfl, ?_, ?_⟩ <;> intros <;> rfl

/-- Reading doubled quotes inside a quoted field appends the original
characters. -/
theorem foldl_dupQuotes (cs : List Char) :
    ∀ (recs : List (List String)) (fields : List String) (cur : List Char),
      List.foldl csvStep ⟨recs, fields, cur, .quoted⟩ (dupQuotes cs) =
        ⟨recs, fields, cur ++ cs, .quoted⟩ := by
  induction cs with
  | nil => intro recs fields cur; simp [dupQuotes]
  | cons c rest ih =>
    intro recs fields cur
    by_cases hc : c = '"'
    · subst hc
      show List.foldl csvStep _ ('"' :: '"' :: dupQuotes rest) = _
      simp only [List.foldl_cons]
      rw [show csvStep (csvStep ⟨recs, fields, cur, .quoted⟩ '"') '"' =
        ⟨recs, fields, cur ++ ['"'], .quoted⟩ from rfl]
      rw [ih]
      simp
    · rw [show dupQuotes (c :: rest) = c :: dupQuotes rest from by
        simp [dupQuotes, hc]]
      simp only [List.foldl_cons]
      rw [show csvStep ⟨recs, fields, cur, .quoted⟩ c =
        ⟨recs, fields, cur ++ [c], .quoted⟩ from by
          simp [csvStep, hc]]
      rw [ih]
      simp

/-- Reading ordinary characters inside an unquoted field appends
them. -/
theorem foldl_plain (cs : List Char) :
    ∀ (recs : List (List String)) (fields : List String) (cur : List Char),
      (∀ c ∈ cs, ¬(c = ',' || c = '"' || c = '\r' || c = '\n') = true) →
      List.foldl csvStep ⟨recs, fields, cur, .field⟩ cs =
        ⟨recs, fields, cur ++ cs, .field⟩ := by
  induction cs with
  | nil => intro recs fields cur _; simp
  | cons c rest ih =>
    intro recs fields cur h
    have hc := h c (List.mem_cons_self _ _)
    have h1 : ¬ (c = ',') := fun hh => hc (by simp [hh])
    have h3 : ¬ (c = '\r') := fun hh => hc (by simp [hh])
    have h4 : ¬ (c = '\n') := fun hh => hc (by simp [hh])
    simp only [List.foldl_cons]
    rw [show csvStep ⟨recs, fields, cur, .field⟩ c =
      ⟨recs, fields, cur ++ [c], .field⟩ from by
        simp [csvStep, h1, h3, h4]]
    rw [ih recs fields (cur ++ [c]) (fun d hd => h d (List.mem_cons_of_mem _ hd))]
    simp

/-- Reading one encoded cell from the start of a field. -/
theorem foldl_encodeCell (c : String) (recs : List (List String))
    (fields : List String) (m : CsvMode)
    (hm : m = CsvMode.start ∨ m = CsvMode.fieldStart) :
    List.foldl csvStep ⟨recs, fields, [], m⟩ (encodeCell c) =
      if cellNeedsQuote c = true then ⟨recs, fields, c.data, .afterQuote⟩
      else if c = "" then ⟨recs, fields, [], m⟩
      else ⟨recs, fields, c.data, .field⟩ := by
  by_cases hq : cellNeedsQuote c = true
  · rw [encodeCell, if_pos hq, if_pos hq]
    simp only [List.foldl_cons]
    have hstep : csvStep ⟨recs, fields, [], m⟩ '"' = ⟨recs, fields, [], .quoted⟩ := by
      rcases hm with rfl | rfl <;> rfl
    rw [hstep, List.foldl_append, foldl_dupQuotes]
    simp only [List.nil_append, List.foldl_cons, List.foldl_nil]
    rfl
  · rw [encodeCell, if_neg hq, if_neg hq]
    by_cases hc : c = ""
    · subst hc
      rw [if_pos rfl]
      rfl
    · rw [if_neg hc]
      have hall : ∀ x ∈ c.data,
          ¬(x = ',' || x = '"' || x = '\r' || x = '\n') = true := by
        intro x hx hcon
        exact hq (by
          rw [cellNeedsQuote, List.any_eq_true]
          exact ⟨x, hx, hcon⟩)
      obtain ⟨d, ds, hds⟩ : ∃ d ds, c.data = d :: ds := by
        cases hcc : c.data with
        | nil =>
          exfalso
          apply hc
          have := congrArg String.mk hcc
          rwa [strMk_data] at this
        | cons d ds => exact ⟨d, ds, rfl⟩
      rw [hds]
      simp only [List.foldl_cons]
      have hd := hall d (by rw [hds]; exact List.mem_cons_self _ _)
      have h1 : ¬ (d = ',') := fun hh => hd (by simp [hh])
      have h2 : ¬ (d = '"') := fun hh => hd (by simp [hh])
      have h3 : ¬ (d = '\r') := fun hh => hd (by simp [hh])
      have h4 : ¬ (d = '\n') := fun hh => hd (by simp [hh])
      have hstep : csvStep ⟨recs, fields, [], m⟩ d = ⟨recs, fields, [d], .field⟩ := by
        rcases hm with rfl | rfl <;> simp [csvStep, h1, h2, h3, h4]
      rw [hstep]
      rw [foldl_plain ds recs fields [d]
        (fun x hx => hall x (by rw [hds]; exact List.mem_cons_of_mem _ hx))]
      simp

/-- Reading one encoded record (a non-empty cell list) from a
field-ready state closes exactly that record. -/
theorem foldl_encodeCells_ready (cells : List String) :
    cells ≠ [] →
    ∀ (recs : List (List String)) (fields : List String) (m : CsvMode),
      (m = CsvMode.start ∨ m = CsvMode.fieldStart) →
      List.foldl csvStep ⟨recs, fields, [], m⟩ (encodeCells cells) =
        ⟨recs ++ [fields ++ cells], [], [], .start⟩ := by
  induction cells with
  | nil => intro h; exact absurd rfl h
  | cons c tail ih =>
    intro _ recs fields m hm
    cases tail with
    | nil =>
      by_cases hc : c = ""
      · subst hc
        rcases hm with rfl | rfl <;> rfl
      · rw [show encodeCells [c] = encodeCell c ++ ['\r', '\n'] from by
          rw [encodeCells, if_neg hc]]
        rw [List.foldl_append, foldl_encodeCell c recs fields m hm]
        by_cases hq : cellNeedsQuote c = true
        · rw [if_pos hq]
          show CsvSt.mk (recs ++ [fields ++ [String.mk c.data]]) [] [] .start = _
          rw [strMk_data]
        · rw [if_neg hq, if_neg hc]
          show CsvSt.mk (recs ++ [fields ++ [String.mk c.data]]) [] [] .start = _
          rw [strMk_data]
    | cons c2 rest =>
      rw [show encodeCells (c :: c2 :: rest) = encodeCell c ++ ',' :: encodeCells (c2 :: rest)
        from rfl]
      rw [List.foldl_append, foldl_encodeCell c recs fields m hm]
      by_cases hq : cellNeedsQuote c = true
      · rw [if_pos hq]
        simp only [List.foldl_cons]
        rw [show csvStep ⟨recs, fields, c.data, .afterQuote⟩ ',' =
          ⟨recs, fields ++ [String.mk c.data], [], .fieldStart⟩ from rfl]
        rw [strMk_data]
        rw [ih (by simp) recs (fields ++ [c]) .fieldStart (Or.inr rfl)]
        simp
      · rw [if_neg hq]
        by_cases hc : c = ""
        · rw [if_pos hc]
          simp only [List.foldl_cons]
          have hstep : csvStep ⟨recs, fields, [], m⟩ ',' =
              ⟨recs, fields ++ [""], [], .fieldStart⟩ := by
            rcases hm with rfl | rfl <;> rfl
          rw [hstep]
          rw [ih (by simp) recs (fields ++ [""]) .fieldStart (Or.inr rfl)]
          subst hc
          simp
        · rw [if_neg hc]
          simp only [List.foldl_cons]
          rw [show csvStep ⟨recs, fields, c.data, .field⟩ ',' =
            ⟨recs, fields ++ [String.mk c.data], [], .fieldStart⟩ from rfl]
          rw [strMk_data]
          rw [ih (by simp) recs (fields ++ [c]) .fieldStart (Or.inr rfl)]
          simp

/-- Reading a whole encoded table appends its rows as records. -/
theorem foldl_encodeTable (g : List (List String)) :
    ∀ (recs : List (List String)),
      List.foldl csvStep ⟨recs, [], [], .start⟩ ((g.map encodeCells).flatten) =
        ⟨recs ++ g, [], [], .start⟩ := by
  induction g with
  | nil => intro recs; simp
  | cons row rest ih =>
    intro recs
    simp only [List.map_cons, List.flatten_cons]
    rw [List.foldl_append]
    by_cases hrow : row = []
    · subst hrow
      rw [show List.foldl csvStep ⟨recs, [], [], .start⟩ (encodeCells []) =
        ⟨recs ++ [[]], [], [], .start⟩ from rfl]
      rw [ih (recs ++ [[]])]
      simp
    · rw [foldl_encodeCells_ready row hrow recs [] .start (Or.inl rfl)]
      rw [List.nil_append, ih (recs ++ [row])]
      simp

/-- C7: for a table whose canonical grid is non-empty, the json export
reproduces the grid unchanged tagged `format = json`, the csv export
produces the `csv.writer` string, and standard CSV splitting of that
string recovers exactly the original rows and cells (the round trip in
fact holds for every grid of cell strings). -/
theorem claim_C7_export_roundtrip (t : TableInfo) (g : List (List String)) :
    (t.data = some g → g ≠ [] →
      process_tables_for_export [t] "json" =
        [⟨t.id, t.page, g.length, tableCols g, .grid g, "json"⟩] ∧
      process_tables_for_export [t] "csv" =
        [⟨t.id, t.page, g.length, tableCols g,
          .text (convert_table_to_csv g), "csv"⟩]) ∧
    csvParse (convert_table_to_csv g) = g := by
  constructor
  · intro hd hne
    constructor <;>
      simp [process_tables_for_export, List.filterMap_cons, hd, hne]
  · unfold csvParse convert_table_to_csv
    rw [show (String.mk ((g.map encodeCells).flatten)).data =
      (g.map encodeCells).flatten from rfl]
    rw [show csvInit = (⟨[], [], [], .start⟩ : CsvSt) from rfl]
    rw [foldl_encodeTable g []]
    simp [csvFinal]

/-- Witness for C7 at a concrete grid with a comma and a quote in its
cells. -/
theorem claim_C7_export_roundtrip_witness :
    process_tables_for_export [exTableC7] "json" =
      [⟨7, 1, 2, 2, .grid [["a", "b"], ["c, x", "d\"e"]], "json"⟩] ∧
    csvParse (convert_table_to_csv [["a", "b"], ["c, x", "d\"e"]]) =
      [["a", "b"], ["c, x", "d\"e"]] :=
  ⟨((claim_C7_export_roundtrip exTableC7 [["a", "b"], ["c, x", "d\"e"]]).1
      rfl (by decide)).1,
   (claim_C7_export_roundtrip exTableC7 [["a", "b"], ["c, x", "d\"e"]]).2⟩

/-- When no csv/html/json write fails, the save loop returns the spec
grouping appended to the accumulator. -/
theorem saveTablesGo_ok (env : SaveEnv) (output_dir : String) :
    ∀ (tables : List ProcessedTable) (acc : SavedFiles),
      (∀ t ∈ tables, writeFailB env output_dir t = false) →
      saveTablesGo env output_dir tables acc = some
        ⟨acc.csv ++ (specSavedFiles env output_dir tables).csv,
         acc.excel ++ (specSavedFiles env output_dir tables).excel,
         acc.json ++ (specSavedFiles env output_dir tables).json,
         acc.html ++ (specSavedFiles env output_dir tables).html⟩ := by
  intro tables
  induction tables with
  | nil =>
    intro acc _
    simp [saveTablesGo, specSavedFiles]
  | cons t ts ih =>
    intro acc h
    have ht := h t (List.mem_cons_self _ _)
    have hts := fun x hx => h x (List.mem_cons_of_mem _ hx)
    rw [saveTablesGo]
    by_cases h1 : t.format = "csv"
    · have hw : env.writeOk (tableFileName output_dir t.id "csv") = true := by
        rw [writeFailB, h1] at ht
        simpa using ht
      rw [if_pos h1]
      simp only [hw, if_true]
      rw [ih _ hts]
      simp [specSavedFiles, List.filterMap_cons, h1]
    · rw [if_neg h1]
      by_cases h2 : t.format = "excel"
      · rw [if_pos h2]
        by_cases hx : env.excelOk (tableFileName output_dir t.id "xlsx") = true
        · simp only [hx, if_true]
          rw [ih _ hts]
          simp [specSavedFiles, List.filterMap_cons, h1, h2, hx]
        · rw [if_neg hx]
          rw [ih _ hts]
          simp [specSavedFiles, List.filterMap_cons, h1, h2, hx]
      · rw [if_neg h2]
        by_cases h3 : t.format = "html"
        · have hw : env.writeOk (tableFileName output_dir t.id "html") = true := by
            rw [writeFailB, h3] at ht
            simpa using ht
          rw [if_pos h3]
          simp only [hw, if_true]
          rw [ih _ hts]
          simp [specSavedFiles, List.filterMap_cons, h1, h2, h3]
        · rw [if_neg h3]
          by_cases h4 : t.format = "json"
          · have hw : env.writeOk (tableFileName output_dir t.id "json") = true := by
              rw [writeFailB, h4] at ht
              simpa using ht
            rw [if_pos h4]
            simp only [hw, if_true]
            rw [ih _ hts]
            simp [specSavedFiles, List.filterMap_cons, h1, h2, h3, h4]
          · rw [if_neg h4]
            rw [ih _ hts]
            simp [specSavedFiles, List.filterMap_cons, h1, h2, h3, h4]

/-- If any table's csv/html/json write fails, the loop escapes to the
outer handler. -/
theorem saveTablesGo_abort (env : SaveEnv) (output_dir : String) :
    ∀ (tables : List ProcessedTable) (acc : SavedFiles),
      (∃ t ∈ tables, writeFailB env output_dir t = true) →
      saveTablesGo env output_dir tables acc = Option.none := by
  intro tables
  induction tables with
  | nil =>
    intro acc h
    obtain ⟨t, ht, _⟩ := h
    cases ht
  | cons t ts ih =>
    intro acc h
    rw [saveTablesGo]
    obtain ⟨u, hu, hfail⟩ := h
    rcases List.mem_cons.mp hu with rfl | htail
    · by_cases h1 : u.format = "csv"
      · rw [if_pos h1]
        have hw : env.writeOk (tableFileName output_dir u.id "csv") = false := by
          rw [writeFailB, h1] at hfail
          simpa using hfail
        simp [hw]
      · rw [if_neg h1]
        by_cases h2 : u.format = "excel"
        · exfalso
          rw [writeFailB, h2] at hfail
          simp at hfail
        · rw [if_neg h2]
          by_cases h3 : u.format = "html"
          · rw [if_pos h3]
            have hw : env.writeOk (tableFileName output_dir u.id "html") = false := by
              rw [writeFailB, h3] at hfail
              simpa using hfail
            simp [hw]
          · rw [if_neg h3]
            by_cases h4 : u.format = "json"
            · rw [if_pos h4]
              have hw : env.writeOk (tableFileName output_dir u.id "json") = false := by
                rw [writeFailB, h4] at hfail
                simpa using hfail
              simp [hw]
            · exfalso
              rw [writeFailB] at hfail
              simp [h1, h3, h4] at hfail
    · have hex : ∃ x ∈ ts, writeFailB env output_dir x = true := ⟨u, htail, hfail⟩
      by_cases h1 : t.format = "csv"
      · rw [if_pos h1]
        cases hw : env.writeOk (tableFileName output_dir t.id "csv")
        · simp [hw]
        · simp only [hw]
          simpa using ih _ hex
      · rw [if_neg h1]
        by_cases h2 : t.format = "excel"
        · rw [if_pos h2]
          cases hw : env.excelOk (tableFileName output_dir t.id "xlsx")
          · simp only [hw]
            simpa using ih _ hex
          · simp only [hw]
            simpa using ih _ hex
        · rw [if_neg h2]
          by_cases h3 : t.format = "html"
          · rw [if_pos h3]
            cases hw : env.writeOk (tableFileName output_dir t.id "html")
            · simp [hw]
            · simp only [hw]
              simpa using ih _ hex
          · rw [if_neg h3]
            by_cases h4 : t.format = "json"
            · rw [if_pos h4]
              cases hw : env.writeOk (tableFileName output_dir t.id "json")
              · simp [hw]
              · simp only [hw]
                simpa using ih _ hex
            · rw [if_neg h4]
              exact ih _ hex

/-- C8 (amended): `save_tables_to_files` persists one file per table
per its format and returns the created paths grouped by format, with an
excel conversion failure caught and skipped without aborting the other
tables — provided every csv/html/json write succeeds; if any csv, html
or json write fails, the exception reaches the outer handler and the
whole save returns empty path lists (previously persisted paths are not
returned). -/
theorem claim_C8_save_tables (env : SaveEnv) (tables : List ProcessedTable)
    (output_dir : String) :
    (env.mkdirOk = true →
      (∀ t ∈ tables, writeFailB env output_dir t = false) →
      save_tables_to_files env tables output_dir =
        specSavedFiles env output_dir tables) ∧
    ((∃ t ∈ tables, writeFailB env output_dir t = true) →
      save_tables_to_files env tables output_dir = emptySaved) := by
  constructor
  · intro hmk hok
    rw [save_tables_to_files, hmk]
    simp only [Bool.not_true, Bool.false_eq_true, if_false]
    rw [saveTablesGo_ok env output_dir tables emptySaved hok]
    rfl
  · intro hex
    rw [save_tables_to_files]
    cases env.mkdirOk
    · rfl
    · simp only [Bool.not_true, Bool.false_eq_true, if_false]
      rw [saveTablesGo_abort env output_dir tables emptySaved hex]

/-- Witness for C8: a csv table and a failing excel table — the excel
failure is skipped, the csv file is still persisted and returned. -/
theorem claim_C8_save_tables_witness :
    save_tables_to_files envC8w
      [⟨1, 1, 1, 1, .text "x\r\n", "csv"⟩, ⟨2, 1, 1, 1, .sheet ["h"] [], "excel"⟩]
      "out" =
      specSavedFiles envC8w "out"
        [⟨1, 1, 1, 1, .text "x\r\n", "csv"⟩, ⟨2, 1, 1, 1, .sheet ["h"] [], "excel"⟩] :=
  (claim_C8_save_tables envC8w
    [⟨1, 1, 1, 1, .text "x\r\n", "csv"⟩, ⟨2, 1, 1, 1, .sheet ["h"] [], "excel"⟩]
    "out").1 rfl (by decide)

/-- Counterexample to C8 as stated: the failure on table 1 aborts the
whole save — table 2's file, whose write would succeed, is not
persisted or returned (the result is the empty grouping, not a grouping
containing table 2's path). -/
theorem claim_C8_counterexample :
    save_tables_to_files envC8cex
      [⟨1, 1, 1, 1, .grid [["x"]], "json"⟩, ⟨2, 1, 1, 1, .grid [["y"]], "json"⟩]
      "tables_output" = emptySaved ∧
    envC8cex.writeOk (tableFileName "tables_output" 2 "json") = true := ⟨rfl, rfl⟩

/-- C9: at attempt `n < 2` with pre-extracted raw text, a response that
parses into a structurally valid result whose trades list is shorter
than the number of `1-BOVESPA` occurrences in the raw text is discarded
— the step retries without recording an error, and the loop proceeds to
the next prompt tier with one more invocation.  This is a retry trigger
beyond the empty-structure and empty-arrays conditions: the result may
be non-empty and is still rejected. -/
theorem claim_C9_expected_trades_retry (parse : String → Option PyVal)
    (raw : String) (n : Nat) (content : String) (r : PyVal)
    (ts fs : List PyVal)
    (hn : n < 2)
    (hclass : classifyResponse parse content = .ok r)
    (htr : pyGet r "trades" = .ok (.list ts))
    (hfe : pyGet r "fees" = .ok (.list fs))
    (hshort : ts.length < countSub "1-BOVESPA".data raw.data) :
    attemptStep parse (some raw) n content = .retry Option.none ∧
    (∀ (agent : Nat → String) (remaining : Nat) (lastError : Option AgnoErr),
      agent n = content →
      runFrom agent parse (some raw) (remaining + 1) n lastError =
        runFrom agent parse (some raw) remaining (n + 1) lastError) := by
  have hstep : attemptStep parse (some raw) n content = .retry Option.none := by
    rw [attemptStep]
    by_cases hm : emptyStructureMarker content = true
    · rw [if_pos ⟨hm, hn⟩]
    · rw [if_neg (fun hand => hm hand.1)]
      simp only [hclass, htr, hfe, pyLen]
      rw [if_pos ⟨hshort, hn⟩]
  refine ⟨hstep, ?_⟩
  intro agent remaining lastError hagent
  rw [runFrom, hagent]
  simp only [hstep]

/-- Witness for C9 at tier 0 with a raw text containing two
`1-BOVESPA` occurrences against a one-trade result. -/
theorem claim_C9_expected_trades_retry_witness :
    attemptStep parseC9 (some "1-BOVESPA ... 1-BOVESPA ...") 0 exShortContent =
      .retry Option.none :=
  (claim_C9_expected_trades_retry parseC9 "1-BOVESPA ... 1-BOVESPA ..." 0
    exShortContent exShortResult [.dict []] [] (by decide) rfl rfl rfl
    (by decide)).1

/-- A failing attempt below the last tier makes the step retry. -/
theorem attemptStep_retry_of_bad (parse : String → Option PyVal)
    (fullPdfContent : Option String) (n : Nat) (content : String)
    (hn : n < 2)
    (hbad : isOkE (classifyResponse parse content) = false) :
    ∃ x, attemptStep parse fullPdfContent n content = .retry x := by
  rw [attemptStep.eq_def]
  by_cases hm : emptyStructureMarker content = true
  · exact ⟨Option.none, by rw [if_pos ⟨hm, hn⟩]⟩
  · obtain ⟨e, he⟩ : ∃ e, classifyResponse parse content = .error e := by
      cases hc : classifyResponse parse content with
      | ok r => rw [hc] at hbad; simp [isOkE] at hbad
      | error e => exact ⟨e, rfl⟩
    refine ⟨some e, ?_⟩
    rw [if_neg (fun hand => hm hand.1)]
    simp only [he]
    rw [handleParseFailure, if_pos hn]

/-- A failing attempt at the last tier raises a `ConversionError`
wrapping the error, from inside the loop. -/
theorem attemptStep_fatal_of_bad (parse : String → Option PyVal)
    (fullPdfContent : Option String) (content : String) (e : AgnoErr)
    (he : classifyResponse parse content = .error e) :
    ∃ site, attemptStep parse fullPdfContent 2 content =
      .fatal ⟨site, some e⟩ := by
  by_cases hph : phrasesMatch e = true
  · refine ⟨"cannot_process", ?_⟩
    rw [attemptStep.eq_def, if_neg (fun hand => absurd hand.2 (by omega))]
    simp only [he]
    rw [handleParseFailure, if_neg (by omega), if_pos hph]
  · refine ⟨"parse_fail", ?_⟩
    rw [attemptStep.eq_def, if_neg (fun hand => absurd hand.2 (by omega))]
    simp only [he]
    rw [handleParseFailure, if_neg (by omega), if_neg hph]

/-- Running the loop across `k` retrying attempts and a fatal one: the
loop raises the fatal error after `n + k + 1` invocations without ever
reaching the diagnosis path. -/
theorem runFrom_retries_then_fatal (agent : Nat → String)
    (parse : String → Option PyVal) (fullPdfContent : Option String)
    (c : ConvErr) :
    ∀ (k n : Nat) (lastError : Option AgnoErr),
      (∀ m, n ≤ m → m < n + k →
        ∃ x, attemptStep parse fullPdfContent m (agent m) = .retry x) →
      attemptStep parse fullPdfContent (n + k) (agent (n + k)) = .fatal c →
      runFrom agent parse fullPdfContent (k + 1) n lastError =
        ⟨.error c, n + k + 1, false⟩ := by
  intro k
  induction k with
  | zero =>
    intro n lastError _ hfatal
    rw [Nat.add_zero] at hfatal
    rw [runFrom]
    simp only [hfatal]
  | succ k ih =>
    intro n lastError hretry hfatal
    obtain ⟨x, hx⟩ := hretry n (Nat.le_refl _) (by omega)
    rw [runFrom]
    simp only [hx]
    have hfatal2 : attemptStep parse fullPdfContent ((n + 1) + k) (agent ((n + 1) + k)) =
        .fatal c := by
      have harith : (n + 1) + k = n + (k + 1) := by omega
      rw [harith]
      exact hfatal
    have hretry2 : ∀ m, n + 1 ≤ m → m < (n + 1) + k →
        ∃ y, attemptStep parse fullPdfContent m (agent m) = .retry y := by
      intro m hm1 hm2
      exact hretry m (by omega) (by omega)
    rw [ih (n + 1) _ hretry2 hfatal2]
    have harith : (n + 1) + k + 1 = n + (k + 1) + 1 := by omega
    rw [harith]

/-- C1: when the agent response is unparseable or structurally invalid
on all three tiers, the orchestrator raises a `ConversionError` wrapping
the last underlying error after exactly 3 agent invocations — but the
diagnostic snapshot is *not* emitted: the raise happens inside the loop
(source line 393), and the post-loop diagnosis block (source lines
401-404) is unreachable, so `diagnosed` is `false`. -/
theorem claim_C1_exhausted_wraps_last_error (agent : Nat → String)
    (parse : String → Option PyVal) (pypdfText : String)
    (hbad : ∀ n, n < 3 → isOkE (classifyResponse parse (agent n)) = false) :
    ∃ e : AgnoErr,
      classifyResponse parse (agent 2) = .error e ∧
      ∃ site, extract_with_agno_agent agent parse pypdfText =
        ⟨.error ⟨site, some e⟩, 3, false⟩ := by
  obtain ⟨e2, hc2⟩ : ∃ e, classifyResponse parse (agent 2) = .error e := by
    cases hc : classifyResponse parse (agent 2) with
    | ok r =>
      have := hbad 2 (by omega)
      rw [hc] at this
      simp [isOkE] at this
    | error e => exact ⟨e, rfl⟩
  obtain ⟨site, hs2⟩ :=
    attemptStep_fatal_of_bad parse (computeFullContent pypdfText) (agent 2) e2 hc2
  refine ⟨e2, hc2, site, ?_⟩
  unfold extract_with_agno_agent
  rw [show (3 : Nat) = 2 + 1 from rfl]
  have hretry : ∀ m, 0 ≤ m → m < 0 + 2 →
      ∃ x, attemptStep parse (computeFullContent pypdfText) m (agent m) = .retry x := by
    intro m _ hm
    exact attemptStep_retry_of_bad parse (computeFullContent pypdfText) m (agent m)
      (by omega) (hbad m (by omega))
  have hfatal : attemptStep parse (computeFullContent pypdfText) (0 + 2)
      (agent (0 + 2)) = .fatal ⟨site, some e2⟩ := by
    rw [show 0 + 2 = 2 from rfl]
    exact hs2
  rw [runFrom_retries_then_fatal agent parse (computeFullContent pypdfText)
    ⟨site, some e2⟩ 2 0 Option.none hretry hfatal]

/-- Witness for C1, doubling as the concrete failing-input evaluation:
with an agent that answers unrecoverable prose on every tier, the run
makes 3 invocations, raises a `ConversionError` wrapping the tier-2
error, and never emits the diagnostic snapshot. -/
theorem claim_C1_exhausted_wraps_last_error_witness :
    (extract_with_agno_agent (fun _ => "totally unusable response")
      (fun _ => Option.none) "").diagnosed = false ∧
    (extract_with_agno_agent (fun _ => "totally unusable response")
      (fun _ => Option.none) "").invocations = 3 := by
  obtain ⟨e, _, site, hrun⟩ := claim_C1_exhausted_wraps_last_error
    (fun _ => "totally unusable response") (fun _ => Option.none) ""
    (fun n _ => rfl)
  rw [hrun]
  exact ⟨rfl, rfl⟩
